import Mathlib

/-!
Verification of the River configuration language core (scanner, parser, AST,
value model, tree-walking evaluator) against its natural-language
specification.  Each Go function referenced by a claim is shallowly embedded
as an executable Lean definition; machine integers are modelled as `Int`/`Nat`
with explicit wrapping at the relevant width, Go `error` returns as
`Except`/`Option`, and Go runtime panics as a distinguished failure
constructor so that "returns an error" and "panics the process" stay
distinguishable.
-/

namespace River

/-! ## Package `token`: tokens and positions (token/token.go, token/file.go) -/

/-- Token is an individual lexical token (token/token.go). -/
inductive Token where
| ILLEGAL
| EOF
| COMMENT
| IDENT
| NUMBER
| FLOAT
| STRING
| BOOL
| NULL
| OR
| AND
| NOT
| ASSIGN
| EQ
| NEQ
| LT
| LTE
| GT
| GTE
| ADD
| SUB
| MUL
| DIV
| MOD
| POW
| LCURLY
| RCURLY
| LPAREN
| RPAREN
| LBRACKET
| RBRACKET
| COMMA
| DOT
| TERMINATOR
deriving DecidableEq, Repr

/-- Token.Lookup maps a string to its keyword token or IDENT if it is not a
keyword (token/token.go `Lookup`). -/
def Token.lookup (ident : String) : Token :=
  if ident = "true" ∨ ident = "false" then .BOOL
  else if ident = "null" then .NULL
  else .IDENT

/-- Canonical text of each token, from the `tokenNames` table in
token/token.go (used by diagnostics). -/
def Token.text : Token → String
| .ILLEGAL => "ILLEGAL"
| .EOF => "EOF"
| .COMMENT => "COMMENT"
| .IDENT => "IDENT"
| .NUMBER => "NUMBER"
| .FLOAT => "FLOAT"
| .STRING => "STRING"
| .BOOL => "BOOL"
| .NULL => "NULL"
| .OR => "||"
| .AND => "&&"
| .NOT => "!"
| .ASSIGN => "="
| .EQ => "=="
| .NEQ => "!="
| .LT => "<"
| .LTE => "<="
| .GT => ">"
| .GTE => ">="
| .ADD => "+"
| .SUB => "-"
| .MUL => "*"
| .DIV => "/"
| .MOD => "%"
| .POW => "^"
| .LCURLY => "\x7b"
| .RCURLY => "\x7d"
| .LPAREN => "("
| .RPAREN => ")"
| .LBRACKET => "["
| .RBRACKET => "]"
| .COMMA => ","
| .DOT => "."
| .TERMINATOR => "TERMINATOR"

/-- Pos is a byte offset within an individual file (token/file.go, `type Pos
int`). -/
abbrev Pos := Int

/-- Position holds full position information for a location within an
individual file (token/file.go). -/
structure Position where
  filename : String
  offset : Int
  line : Int
  column : Int
deriving DecidableEq, Repr

/-- IsValid reports whether the position is valid, exactly as implemented at
token/file.go:22-24: `return pos.Line > 1`.  (The function's own doc comment
says valid positions "must have a Line value of at least 1".) -/
def Position.IsValid (pos : Position) : Bool :=
  pos.line > 1

/-- File holds position information for a specific file (token/file.go).
`lines` is the byte offset of each line number; the first element is always
0. -/
structure File where
  filename : String
  lines : List Int
deriving Repr

/-- NewFile creates a new File for storing position information. -/
def NewFile (filename : String) : File :=
  ⟨filename, [0]⟩

/-- AddLine tracks a new line from a byte offset.  The line offset must be
larger than the offset for the previous line, otherwise the line offset is
ignored (token/file.go `AddLine`). -/
def File.AddLine (f : File) (offset : Int) : File :=
  if f.lines.length = 0 ∨ f.lines.getLast! < offset then
    ⟨f.filename, f.lines ++ [offset]⟩
  else f

/-- searchInts from token/file.go: index of the last line-start offset that is
at most `x` (the Go code uses `sort.Search` for the first offset strictly
greater than `x`, minus one). -/
def searchInts (a : List Int) (x : Int) : Int :=
  (a.takeWhile (fun v => ¬ (v > x))).length - 1

/-- PositionFor returns a Position from an offset (token/file.go
`PositionFor`). -/
def File.PositionFor (f : File) (p : Pos) : Position :=
  if p = 0 then ⟨"", 0, 0, 0⟩
  else
    let i := searchInts f.lines p
    let line := if i ≥ 0 then i + 1 else 0
    let column := if i ≥ 0 then p - f.lines.getD i.toNat 0 + 1 else 0
    ⟨f.filename, p, line, column⟩

/-! ## Machine-integer and float helpers

Go's `int64`/`uint64` are modelled as `Int`/`Nat` with explicit wrapping at
2^64.  Go's `float64` is modelled by `F64`: exact rationals plus the IEEE
special values.  (IEEE rounding is abstracted away as exact rational
arithmetic; no claim in this development depends on a rounded float result.)
-/

/-- Reinterpret a raw 64-bit pattern (a Nat below 2^64) as a Go int64. -/
def toI64 (n : Nat) : Int :=
  if n < 2 ^ 63 then (n : Int) else (n : Int) - 2 ^ 64

/-- Wrap an unbounded integer into a raw 64-bit pattern (two's complement). -/
def wrap64 (i : Int) : Nat :=
  (i % (2 ^ 64 : Int)).toNat

/-- Go int64 addition (wraps on overflow). -/
def i64add (a b : Int) : Int := toI64 (wrap64 (a + b))

/-- Go int64 subtraction (wraps on overflow). -/
def i64sub (a b : Int) : Int := toI64 (wrap64 (a - b))

/-- Go int64 multiplication (wraps on overflow). -/
def i64mul (a b : Int) : Int := toI64 (wrap64 (a * b))

/-- Go int64 negation (wraps on overflow, i.e. `-MinInt64 = MinInt64`). -/
def i64neg (a : Int) : Int := toI64 (wrap64 (-a))

/-- Go int64 quotient (truncated toward zero).  The `b = 0` case is a Go
runtime panic and is handled by the caller before using this function. -/
def i64quot (a b : Int) : Int := toI64 (wrap64 (Int.tdiv a b))

/-- Go int64 remainder (truncated).  The `b = 0` case is a Go runtime panic
and is handled by the caller before using this function. -/
def i64rem (a b : Int) : Int := toI64 (wrap64 (Int.tmod a b))

/-- Go uint64 addition. -/
def u64add (a b : Nat) : Nat := (a + b) % 2 ^ 64

/-- Go uint64 subtraction (wraps). -/
def u64sub (a b : Nat) : Nat := wrap64 ((a : Int) - (b : Int))

/-- Go uint64 multiplication. -/
def u64mul (a b : Nat) : Nat := (a * b) % 2 ^ 64

/-- Model of Go float64: exact unnormalized rationals (`num/den` with
`den > 0` maintained by every operation) plus the IEEE special values.
Rounding to binary64 is abstracted away (arithmetic is exact); negative zero
is identified with zero.  Semantic equality is `F64.beq`
(cross-multiplication); the structural `DecidableEq` is only a convenience
for stating concrete results. -/
inductive F64 where
| finite (num : Int) (den : Int)
| inf
| neginf
| nan
deriving DecidableEq, Repr

namespace F64

/-- Normalize the sign of the denominator. -/
def mkQ (n d : Int) : F64 :=
  if d < 0 then finite (-n) (-d) else finite n d

def neg : F64 → F64
| finite n d => finite (-n) d
| inf => neginf
| neginf => inf
| nan => nan

def add : F64 → F64 → F64
| finite a b, finite c d => finite (a * d + c * b) (b * d)
| nan, _ => nan
| _, nan => nan
| inf, neginf => nan
| neginf, inf => nan
| inf, _ => inf
| _, inf => inf
| neginf, _ => neginf
| _, neginf => neginf

def sub (a b : F64) : F64 := add a (neg b)

def mul : F64 → F64 → F64
| finite a b, finite c d => finite (a * c) (b * d)
| nan, _ => nan
| _, nan => nan
| inf, finite c _ => if c > 0 then inf else if c < 0 then neginf else nan
| finite a _, inf => if a > 0 then inf else if a < 0 then neginf else nan
| neginf, finite c _ => if c > 0 then neginf else if c < 0 then inf else nan
| finite a _, neginf => if a > 0 then neginf else if a < 0 then inf else nan
| inf, inf => inf
| inf, neginf => neginf
| neginf, inf => neginf
| neginf, neginf => inf

def div : F64 → F64 → F64
| finite a b, finite c d =>
  if c = 0 then (if a > 0 then inf else if a < 0 then neginf else nan)
  else mkQ (a * d) (b * c)
| nan, _ => nan
| _, nan => nan
| inf, inf => nan
| inf, neginf => nan
| neginf, inf => nan
| neginf, neginf => nan
| inf, finite c _ => if c ≥ 0 then inf else neginf
| neginf, finite c _ => if c ≥ 0 then neginf else inf
| finite _ _, inf => finite 0 1
| finite _ _, neginf => finite 0 1

/-- Model of math.Mod: `x - Trunc(x/y)*y`, magnitude below `y`, sign of
`x`. -/
def fmod : F64 → F64 → F64
| finite an ad, finite bn bd =>
  if bn = 0 then nan
  else
    let N := an * bd
    let D := ad * bn
    let t := if D < 0 then Int.tdiv (-N) (-D) else Int.tdiv N D
    sub (finite an ad) (mul (finite bn bd) (finite t 1))
| finite an ad, inf => finite an ad
| finite an ad, neginf => finite an ad
| _, _ => nan

/-- Model of math.Pow restricted to what can be stated exactly: integer
exponents of finite bases.  Other combinations are abstracted as `nan`; no
claim depends on them. -/
def fpow : F64 → F64 → F64
| finite a b, finite c d =>
  if Int.tmod c d = 0 then
    let e := Int.tdiv c d
    if e ≥ 0 then finite (a ^ e.toNat) (b ^ e.toNat)
    else if a = 0 then inf else mkQ (b ^ e.natAbs) (a ^ e.natAbs)
  else nan
| _, _ => nan

/-- Value equality (cross-multiplication; denominators are positive). -/
def beq : F64 → F64 → Bool
| finite a b, finite c d => a * d = c * b
| inf, inf => true
| neginf, neginf => true
| _, _ => false

def blt : F64 → F64 → Bool
| finite a b, finite c d => a * d < c * b
| finite _ _, inf => true
| neginf, finite _ _ => true
| neginf, inf => true
| _, _ => false

def ble (a b : F64) : Bool := blt a b || beq a b

/-- The float is the zero value (reflect.Value.IsZero on a float64 slot). -/
def isZeroB : F64 → Bool
| finite n _ => n = 0
| _ => false

/-- Conversion int64 → float64 (exact in this model). -/
def ofInt (i : Int) : F64 := finite i 1

/-- Conversion uint64 → float64 (exact in this model). -/
def ofNat (n : Nat) : F64 := finite n 1

/-- Go conversion float64 → int64: truncation toward zero.  The behavior on
NaN/infinities is unspecified in Go; we pick 0 and never rely on it. -/
def toInt : F64 → Int
| finite n d => Int.tdiv n d
| _ => 0

/-- Go conversion float64 → uint64 via truncation (negative values are
unspecified in Go; we wrap and never rely on it). -/
def toUint (f : F64) : Nat := wrap64 f.toInt

end F64

/-! ## Models of the strconv parse functions used by the repository

These follow the accepting behavior of Go's strconv for the decimal forms the
repository feeds them.  Results are exact (`F64` holds a rational), so the
binary64 rounding step of ParseFloat is abstracted away; syntax
accept/reject behavior — which is what the claims depend on — is preserved
for decimal inputs.  Hex/underscore float forms accepted by Go's ParseFloat
are not modelled (the repository never produces them).
-/

def isDigitChar (c : Char) : Bool := '0' ≤ c ∧ c ≤ '9'

def digitsToNat (cs : List Char) : Nat :=
  cs.foldl (fun acc c => acc * 10 + (c.toNat - '0'.toNat)) 0

/-- Model of strconv.ParseUint(s, 10, 64): decimal digits only; empty or
malformed input and out-of-range values give `none` (Go returns an error). -/
def goParseUint (s : String) : Option Nat :=
  let cs := s.toList
  if cs.isEmpty then none
  else if cs.all isDigitChar then
    let n := digitsToNat cs
    if n ≤ 2 ^ 64 - 1 then some n else none
  else none

/-- Model of strconv.ParseInt(s, 10, 64): optional sign then decimal digits;
range-checked against int64. -/
def goParseInt (s : String) : Option Int :=
  let cs := s.toList
  match cs with
  | [] => none
  | c :: rest =>
    let (negQ, digits) : Bool × List Char :=
      if c = '-' then (true, rest) else if c = '+' then (false, rest) else (false, cs)
    if digits.isEmpty then none
    else if digits.all isDigitChar then
      let n := digitsToNat digits
      if negQ then (if n ≤ 2 ^ 63 then some (-(n : Int)) else none)
      else (if n ≤ 2 ^ 63 - 1 then some (n : Int) else none)
    else none

/-- Model of strconv.ParseInt(s, 0, 64) (base detection, as used for NUMBER
literals): optional sign, then `0x`/`0o`/`0b` prefixes or leading-zero octal,
else decimal.  Underscore digit separators are not modelled (the scanner
never produces them). -/
def goParseIntBase0 (s : String) : Option Int :=
  let cs := s.toList
  match cs with
  | [] => none
  | c :: rest =>
    let (negQ, body) : Bool × List Char :=
      if c = '-' then (true, rest) else if c = '+' then (false, rest) else (false, cs)
    let inBase (base : Nat) (ds : List Char) : Option Nat :=
      let val (c : Char) : Nat :=
        if isDigitChar c then c.toNat - '0'.toNat
        else if 'a' ≤ c ∧ c ≤ 'f' then c.toNat - 'a'.toNat + 10
        else if 'A' ≤ c ∧ c ≤ 'F' then c.toNat - 'A'.toNat + 10
        else 16
      if ds.isEmpty then none
      else if ds.all (fun c => val c < base) then
        some (ds.foldl (fun acc c => acc * base + val c) 0)
      else none
    let parsed : Option Nat :=
      match body with
      | '0' :: x :: ds =>
        if x = 'x' ∨ x = 'X' then inBase 16 ds
        else if x = 'o' ∨ x = 'O' then inBase 8 ds
        else if x = 'b' ∨ x = 'B' then inBase 2 ds
        else inBase 8 (x :: ds)
      | ['0'] => some 0
      | ds => inBase 10 ds
    match parsed with
    | none => none
    | some n =>
      if negQ then (if n ≤ 2 ^ 63 then some (-(n : Int)) else none)
      else (if n ≤ 2 ^ 63 - 1 then some (n : Int) else none)

/-- Model of strconv.ParseFloat(s, 64) on decimal forms: optional sign,
digits with optional fraction (at least one digit overall), optional
exponent; the special words Inf/Infinity/NaN (any case, optional sign).
The result is exact. -/
def goParseFloat (s : String) : Option F64 :=
  let lower := s.toList.map (fun c => if 'A' ≤ c ∧ c ≤ 'Z' then Char.ofNat (c.toNat + 32) else c)
  if lower = "inf".toList ∨ lower = "+inf".toList ∨ lower = "infinity".toList ∨
      lower = "+infinity".toList then some .inf
  else if lower = "-inf".toList ∨ lower = "-infinity".toList then some .neginf
  else if lower = "nan".toList then some .nan
  else
    let cs := s.toList
    let (negQ, body) : Bool × List Char :=
      match cs with
      | '-' :: rest => (true, rest)
      | '+' :: rest => (false, rest)
      | _ => (false, cs)
    let intPart := body.takeWhile isDigitChar
    let afterInt := body.drop intPart.length
    let (fracPart, afterFrac) : List Char × List Char :=
      match afterInt with
      | '.' :: rest => (rest.takeWhile isDigitChar, rest.drop (rest.takeWhile isDigitChar).length)
      | _ => ([], afterInt)
    let sawDot : Bool := match afterInt with | '.' :: _ => true | _ => false
    if intPart.isEmpty ∧ (¬ sawDot ∨ fracPart.isEmpty) then none
    else if sawDot ∧ intPart.isEmpty ∧ fracPart.isEmpty then none
    else
      let mantNum : Int := (digitsToNat intPart : Int) * 10 ^ fracPart.length +
        (digitsToNat fracPart : Int)
      let mantDen : Int := 10 ^ fracPart.length
      let expRes : Option Int :=
        match afterFrac with
        | [] => some 0
        | e :: rest =>
          if e = 'e' ∨ e = 'E' then
            let (eneg, ds) : Bool × List Char :=
              match rest with
              | '-' :: ds => (true, ds)
              | '+' :: ds => (false, ds)
              | _ => (false, rest)
            if ds.isEmpty ∨ ¬ ds.all isDigitChar then none
            else some (if eneg then -(digitsToNat ds : Int) else (digitsToNat ds : Int))
          else none
      match expRes with
      | none => none
      | some e =>
        let num := if e < 0 then mantNum else mantNum * 10 ^ e.natAbs
        let den := if e < 0 then mantDen * 10 ^ e.natAbs else mantDen
        some (.finite (if negQ then -num else num) den)

/-! ## Package `rivertags` (vm/internal/rivertags/rivertags.go) -/

namespace rivertags

/-- Flag bits assigned to a tag (rivertags.go `tagFlags`), modelled as a
record of booleans. -/
structure TagFlags where
  attr : Bool
  block : Bool
  key : Bool
  optional : Bool
  label : Bool
deriving DecidableEq, Repr

def noFlags : TagFlags := ⟨false, false, false, false, false⟩

/-- Field is a tagged field within a struct (rivertags.go `Field`). -/
structure Field where
  Name : String
  Index : Nat
  flags : TagFlags
deriving DecidableEq, Repr

def Field.IsIgnored (f : Field) : Bool := f.Name = "-"

def Field.IsAttr (f : Field) : Bool := f.flags.attr

def Field.IsBlock (f : Field) : Bool := f.flags.block

def Field.IsKey (f : Field) : Bool := f.flags.key

def Field.IsOptional (f : Field) : Bool := f.flags.optional

def Field.IsLabel (f : Field) : Bool := f.flags.label

/-- Fields is the list of tagged fields within a struct. -/
abbrev Fields := List Field

/-- BlockKind returns true if tagged fields are used for blocks
(rivertags.go `Fields.BlockKind`). -/
def Fields.BlockKind (ff : Fields) : Bool :=
  ff.any fun tf => tf.Name ≠ "-" ∧ (tf.IsAttr ∨ tf.IsBlock ∨ tf.IsLabel)

/-- ObjectKind returns true if tagged fields are used for objects
(rivertags.go `Fields.ObjectKind`). -/
def Fields.ObjectKind (ff : Fields) : Bool :=
  ff.any fun tf => tf.Name ≠ "-" ∧ tf.IsKey

/-- Fields.Get returns the first tagged field with the given name
(rivertags.go `Fields.Get`). -/
def Fields.Get (ff : Fields) (name : String) : Option Field :=
  ff.find? fun tf => tf.Name = name

/-- Modelled from the spec: the `Fields.Keys` helper used by the value
package is not among the source files; the spec describes the schema as an
"ordered list of tagged fields" each carrying "the declared name", so Keys
returns the declared names in order. -/
def Fields.Keys (ff : Fields) : List String :=
  ff.map Field.Name

/-- Modelled from the spec: `Fields.Len` (see `Fields.Keys`). -/
def Fields.Len (ff : Fields) : Nat := ff.length

/-- Modelled from the spec: `Fields.Index` (see `Fields.Keys`). -/
def Fields.Index (ff : Fields) (i : Nat) : Field :=
  ff.getD i ⟨"", 0, noFlags⟩

/-- Go strings.SplitN(tag, ",", 2): the fragment before the first comma and,
when a comma exists, everything after it. -/
def splitN2 (s : String) : String × Option String :=
  match s.toList.findIdx? (fun c => c = ',') with
  | none => (s, none)
  | some i => (⟨s.toList.take i⟩, some ⟨s.toList.drop (i + 1)⟩)

/-- One step of the field loop of rivertags.Get (rivertags.go:100-164).
State: the field descriptors still to process (Go field name × river tag),
the next field index, the used-name map, the label-field index, and the
fields accumulated so far.  Go panics are modelled as `Except.error` with the
panic message. -/
def getLoop : List (String × Option String) → Nat → List (String × Nat) →
    Option Nat → Fields → Except String Fields
| [], _, _, _, res =>
  if res.BlockKind ∧ res.ObjectKind then
    .error "river: struct has tags for both objects and blocks at the same time"
  else pure res
| (fname, tagOpt) :: rest, i, usedNames, usedLabel, res =>
  match tagOpt with
  | none => getLoop rest (i + 1) usedNames usedLabel res
  | some tag =>
    if tag = "-" then
      getLoop rest (i + 1) usedNames usedLabel (res ++ [⟨"-", i, noFlags⟩])
    else
      let frags := splitN2 tag
      let name := frags.1
      if (usedNames.lookup name).isSome ∧ name ≠ "" then
        .error ("river: " ++ name ++ " already used")
      else
        let usedNames := (name, i) :: usedNames
        let flagsRes : Except String TagFlags :=
          match frags.2 with
          | none => pure noFlags
          | some "attr" => pure { noFlags with attr := true }
          | some "attr,optional" => pure { noFlags with attr := true, optional := true }
          | some "block" => pure { noFlags with block := true }
          | some "block,optional" => pure { noFlags with block := true, optional := true }
          | some "key" => pure { noFlags with key := true }
          | some "key,optional" => pure { noFlags with key := true, optional := true }
          | some "label" => pure { noFlags with label := true }
          | some _ => .error ("river: unsupported river tag format " ++ tag ++ " on " ++ fname)
        match flagsRes with
        | .error e => .error e
        | .ok flags =>
          let tf : Field := ⟨name, i, flags⟩
          if tf.IsLabel ∧ usedLabel.isSome then
            .error "river: label field already used"
          else
            let usedLabel := if tf.IsLabel then some i else usedLabel
            if tf.Name = "" ∧ (tf.IsBlock ∨ tf.IsAttr ∨ tf.IsKey) then
              .error ("river: non-empty field name required in " ++ fname)
            else
              getLoop rest (i + 1) usedNames usedLabel (res ++ [tf])

/-- Get returns the list of tagged fields for a struct type, given the Go
field names and `river` tags in declaration order (rivertags.go `Get`).
Fields without a river tag are skipped, exactly as `Tag.Lookup` failing. -/
def Get (fields : List (String × Option String)) : Except String Fields :=
  getLoop fields 0 [] none []

end rivertags

/-! ## Reflect-level model of Go types and values

The value package manipulates `reflect.Value`s.  `GoTy`/`GoVal` model the Go
types and values that flow through the claims: 64-bit numbers, strings,
bools, the empty interface, slices, arrays, string-keyed maps, pointers, and
structs (a struct type is its ordered list of Go field name × river tag ×
field type).  `GoVal.vInvalid` is the zero `reflect.Value`.
-/

inductive GoTy where
| tInt64
| tUint64
| tFloat64
| tString
| tBool
| tIface
| tSlice (elem : GoTy)
| tArray (n : Nat) (elem : GoTy)
| tMap (elem : GoTy)
| tPtr (elem : GoTy)
| tStruct (fields : List (String × Option String × GoTy))

inductive GoVal where
| vInvalid
| vInt64 (v : Int)
| vUint64 (v : Nat)
| vFloat64 (f : F64)
| vString (s : String)
| vBool (b : Bool)
| vIface (inner : Option GoVal)
| vSlice (elem : GoTy) (elems : List GoVal)
| vArray (elem : GoTy) (elems : List GoVal)
| vMap (elem : GoTy) (entries : List (String × GoVal))
| vPtr (elem : GoTy) (inner : Option GoVal)
| vStruct (fields : List (String × Option String × GoTy)) (vals : List GoVal)

mutual

/-- Structural equality of Go types; models reflect.Type identity
comparison. -/
def GoTy.beq : GoTy → GoTy → Bool
| .tInt64, .tInt64 => true
| .tUint64, .tUint64 => true
| .tFloat64, .tFloat64 => true
| .tString, .tString => true
| .tBool, .tBool => true
| .tIface, .tIface => true
| .tSlice a, .tSlice b => GoTy.beq a b
| .tArray n a, .tArray m b => n = m && GoTy.beq a b
| .tMap a, .tMap b => GoTy.beq a b
| .tPtr a, .tPtr b => GoTy.beq a b
| .tStruct fs, .tStruct gs => GoTy.fieldsBeq fs gs
| _, _ => false

def GoTy.fieldsBeq : List (String × Option String × GoTy) →
    List (String × Option String × GoTy) → Bool
| [], [] => true
| (n1, t1, ty1) :: r1, (n2, t2, ty2) :: r2 =>
  n1 = n2 && t1 = t2 && GoTy.beq ty1 ty2 && GoTy.fieldsBeq r1 r2
| _, _ => false

end

/-- reflect.Value.Type, returning none for the zero Value (where Go
panics). -/
def GoVal.typeOf : GoVal → Option GoTy
| .vInvalid => none
| .vInt64 _ => some .tInt64
| .vUint64 _ => some .tUint64
| .vFloat64 _ => some .tFloat64
| .vString _ => some .tString
| .vBool _ => some .tBool
| .vIface _ => some .tIface
| .vSlice e _ => some (.tSlice e)
| .vArray e es => some (.tArray es.length e)
| .vMap e _ => some (.tMap e)
| .vPtr e _ => some (.tPtr e)
| .vStruct fs _ => some (.tStruct fs)

mutual

/-- The zero Go value of a type (reflect.Zero / reflect.New(...).Elem()). -/
def zeroValue : GoTy → GoVal
| .tInt64 => .vInt64 0
| .tUint64 => .vUint64 0
| .tFloat64 => .vFloat64 (.finite 0 1)
| .tString => .vString ""
| .tBool => .vBool false
| .tIface => .vIface none
| .tSlice e => .vSlice e []
| .tArray n e => .vArray e (List.replicate n (zeroValue e))
| .tMap e => .vMap e []
| .tPtr e => .vPtr e none
| .tStruct fields => .vStruct fields (zeroFields fields)

def zeroFields : List (String × Option String × GoTy) → List GoVal
| [] => []
| (_, _, t) :: rest => zeroValue t :: zeroFields rest

end

mutual

/-- reflect.Value.IsZero.  Nil-ness of slices and maps is not modelled
separately from emptiness; no claim depends on the distinction. -/
def GoVal.IsZero : GoVal → Bool
| .vInvalid => false
| .vInt64 v => v = 0
| .vUint64 v => v = 0
| .vFloat64 f => f.isZeroB
| .vString s => s = ""
| .vBool b => b = false
| .vIface inner => inner.isNone
| .vSlice _ es => es.isEmpty
| .vArray _ es => GoVal.allZero es
| .vMap _ entries => entries.isEmpty
| .vPtr _ inner => inner.isNone
| .vStruct _ vals => GoVal.allZero vals

def GoVal.allZero : List GoVal → Bool
| [] => true
| v :: rest => GoVal.IsZero v && GoVal.allZero rest

end

/-- reflect.Value.IsValid. -/
def GoVal.IsValid : GoVal → Bool
| .vInvalid => false
| _ => true

/-! ## The value package used by Decode (value.go first revision,
number_value.go, decode.go, error.go, and convertValue from the cited
revision).  Go errors are `VErr`, Go panics are `Failure.gopanic`. -/

namespace value

/-- Kind represents a category of River value (the revision of the Kind enum
paired with decode.go: no Any/Map kinds). -/
inductive Kind where
| invalid
| number
| string
| bool
| array
| object
| function
| capsule
deriving DecidableEq, Repr

/-- Kind.String from the kindStrings table. -/
def Kind.text : Kind → String
| .invalid => "invalid"
| .number => "number"
| .string => "string"
| .bool => "bool"
| .array => "array"
| .object => "object"
| .function => "function"
| .capsule => "capsule"

/-- kindFromType maps a Go type to a Kind (part of the value package's
type.go).  The capsule-marker interface is not modelled (no modelled type
implements it); function types are not modelled. -/
def kindFromType : GoTy → Kind
| .tPtr e => kindFromType e
| .tInt64 => .number
| .tUint64 => .number
| .tFloat64 => .number
| .tString => .string
| .tBool => .bool
| .tSlice _ => .array
| .tArray _ _ => .array
| .tMap _ => .object
| .tStruct _ => .object
| .tIface => .capsule

/-- A River value of the first revision: a Go value plus its Kind
(value.go `type Value struct { v reflect.Value; k Kind }`). -/
structure Value where
  v : GoVal
  k : Kind

/-- Null is the zero Value. -/
def Null : Value := ⟨.vInvalid, .invalid⟩

/-- The river tags of a struct type, as getCachedTags computes them via
rivertags.Get (error.go second revision; the cache is semantically
transparent). -/
def getCachedTags (fields : List (String × Option String × GoTy)) :
    Except String rivertags.Fields :=
  rivertags.Get (fields.map fun f => (f.1, f.2.1))

/-- makeValue converts a reflect value into a Value, unwrapping pointers and
empty interfaces (value.go `makeValue`: the loop condition evaluates
`v.Type()`, which panics on the zero Value reached by dereferencing a nil
pointer or nil interface). -/
def makeValue : GoVal → Except String Value
| .vPtr _ (some w) => makeValue w
| .vPtr _ none => .error "reflect: call of reflect.Value.Type on zero Value"
| .vIface (some w) => makeValue w
| .vIface none => .error "reflect: call of reflect.Value.Type on zero Value"
| .vInvalid => .error "reflect: call of reflect.Value.Type on zero Value"
| v =>
  match v.typeOf with
  | some t => pure ⟨v, kindFromType t⟩
  | none => .error "reflect: call of reflect.Value.Type on zero Value"

/-- Keys returns the keys in v (value.go `Keys`).  Go's map iteration order
is unspecified; it is modelled as entry insertion order. -/
def Value.Keys (v : Value) : Except String (List String) :=
  if v.k ≠ .object then .error "river/vm: MapKeys called on non-object value"
  else
    match v.v with
    | .vStruct fields _ => do
      let ff ← getCachedTags fields
      pure ff.Keys
    | .vMap _ entries => pure (entries.map Prod.fst)
    | _ => .error "river/vm: unexpected object value"

/-- Key returns the value for a key in v together with the `ok` flag
(value.go:129-156 `Key`).  For map-backed objects the entry is rejected
(`ok = false`) when it is absent (`!val.IsValid()`) or when the stored entry
is the zero value of its type (`val.IsZero()`). -/
def Value.Key (v : Value) (key : String) : Except String (Value × Bool) :=
  if v.k ≠ .object then .error "river/vm: MapIndex called on non-object value"
  else
    match v.v with
    | .vStruct fields vals => do
      let ff ← getCachedTags fields
      match ff.Get key with
      | none => pure (Null, false)
      | some f => do
        let mv ← makeValue (vals.getD f.Index .vInvalid)
        pure (mv, true)
    | .vMap _ entries =>
      let val := (entries.lookup key).getD .vInvalid
      if ¬ val.IsValid ∨ val.IsZero then pure (Null, false)
      else do
        let mv ← makeValue val
        pure (mv, true)
    | _ => .error "river/vm: unexpected object value"

/-- Value.Index (value.go:167-174): `makeValue(v.v.Index(i))`, panicking on a
non-array Value; reflect itself panics when the index is out of range. -/
def Value.Index (v : Value) (i : Int) : Except String Value :=
  if v.k ≠ .array then .error "river/vm: Index called on non-array value"
  else
    match v.v with
    | .vSlice _ es =>
      if i < 0 ∨ i ≥ (es.length : Int) then .error "reflect: slice index out of range"
      else makeValue (es.getD i.toNat .vInvalid)
    | .vArray _ es =>
      if i < 0 ∨ i ≥ (es.length : Int) then .error "reflect: array index out of range"
      else makeValue (es.getD i.toNat .vInvalid)
    | _ => .error "reflect: call of reflect.Value.Index on non-array Value"

/-! ### number_value.go -/

inductive NumberKind where
| int
| uint
| float
deriving DecidableEq, Repr

/-- numberValue from number_value.go.  Go stores the raw 64 bits of the
number in a uint64 (`value`); for floats the payload is kept here directly as
an `F64` instead of its IEEE bit pattern, which is equivalent because every
read goes through `math.Float64frombits`. -/
structure NumberValue where
  raw : Nat
  bits : Nat
  k : NumberKind
  fv : F64
deriving DecidableEq, Repr

/-- newNumberValue (number_value.go:45-82) on the numeric Go values of the
model; all modelled numeric types are 64-bit.  Returns none where Go would
panic on a non-number. -/
def newNumberValue : GoVal → Option NumberValue
| .vInt64 i => some ⟨wrap64 i, 64, .int, .finite 0 1⟩
| .vUint64 u => some ⟨u, 64, .uint, .finite 0 1⟩
| .vFloat64 f => some ⟨0, 64, .float, f⟩
| _ => none

/-- numberValue.Int (number_value.go:84-89): for floats, truncate; otherwise
reinterpret the raw bits as int64. -/
def NumberValue.Int (nv : NumberValue) : Int :=
  if nv.k = .float then nv.fv.toInt else toI64 nv.raw

/-- numberValue.Uint (number_value.go:91-96). -/
def NumberValue.Uint (nv : NumberValue) : Nat :=
  if nv.k = .float then nv.fv.toUint else nv.raw

/-- numberValue.Float (number_value.go:98-103).  Note the source converts the
raw uint64 bits for both int and uint kinds (`float64(nv.value)`), so a
negative int64 becomes a large positive float. -/
def NumberValue.Float (nv : NumberValue) : F64 :=
  if nv.k = .float then nv.fv else F64.ofNat nv.raw

/-- Decimal text of a float64 as strconv.FormatFloat(f, 'f', -1, 64) produces
it, modelled precisely only for integral rationals (no claim inspects the
text of a fractional or special float). -/
def f64Text : F64 → String
| .finite n d => if Int.tmod n d = 0 then toString (Int.tdiv n d) else toString n ++ "/" ++ toString d
| .inf => "+Inf"
| .neginf => "-Inf"
| .nan => "NaN"

/-- numberValue.ToString (number_value.go:106-117). -/
def NumberValue.ToString (nv : NumberValue) : String :=
  match nv.k with
  | .uint => toString nv.raw
  | .int => toString (toI64 nv.raw)
  | .float => f64Text nv.fv

/-- fitNumberKinds (number_value.go:119-131): uint < int < float. -/
def numberKindPrec : NumberKind → Nat
| .uint => 0
| .int => 1
| .float => 2

def fitNumberKinds (a b : NumberKind) : NumberKind :=
  if numberKindPrec a > numberKindPrec b then a else b

/-! ### convertValue (the revision cited by the claims, with fmt.Errorf
errors) and convertNumber -/

/-- Value.Kind accessor (value.go `Kind`). -/
def Value.Kind' (v : Value) : Kind := v.k

/-- convertValue converts a Value to a Value of a different Kind; the only
valid conversions between kinds are between numbers and strings
(cited revision, lines 73-125 of the merged file).  A Go `error` return is
`Except.error` with the message. -/
def convertValue (val : Value) (toKind : Kind) : Except String Value :=
  let fromKind := val.k
  if fromKind = toKind then pure val
  else
    match fromKind, toKind with
    | .number, .string =>
      match newNumberValue val.v with
      | some nv => pure ⟨.vString nv.ToString, .string⟩
      | none => .error "river/vm: unrecognized Go number type"
    | .string, .number =>
      let sourceStr := match val.v with | .vString s => s | _ => ""
      if sourceStr = "" then
        .error ("cannot convert string \"" ++ sourceStr ++ "\" to number")
      else if sourceStr.front = '-' then
        match goParseInt sourceStr with
        | some i => pure ⟨.vInt64 i, .number⟩
        | none => .error ("cannot convert string \"" ++ sourceStr ++ "\" to number: invalid")
      else if sourceStr.toList.any (fun c => c = '.' ∨ c = 'e' ∨ c = 'E') then
        match goParseFloat sourceStr with
        | some f => pure ⟨.vFloat64 f, .number⟩
        | none => .error ("cannot convert string \"" ++ sourceStr ++ "\" to number: invalid")
      else
        match goParseUint sourceStr with
        | some u => pure ⟨.vUint64 u, .number⟩
        | none => .error ("cannot convert string \"" ++ sourceStr ++ "\" to number: invalid")
    | _, _ =>
      .error ("cannot assign " ++ fromKind.text ++ " to " ++ toKind.text)

/-- convertNumber (same revision, lines 127-158): convert a numeric reflect
value to the target numeric type.  Returns none where Go panics with
"unsupported number conversion". -/
def convertNumber (v : GoVal) (target : GoTy) : Option GoVal :=
  match newNumberValue v with
  | none => none
  | some nval =>
    match target with
    | .tInt64 => some (.vInt64 nval.Int)
    | .tUint64 => some (.vUint64 nval.Uint)
    | .tFloat64 => some (.vFloat64 nval.Float)
    | _ => none

/-! ### decode.go -/

/-- The error values produced by the value package (error.go) plus plain
fmt.Errorf messages. -/
inductive VErr where
| typeError (value : Value) (expected : Kind)
| missingKey (value : Value) (missing : String)
| element (value : Value) (index : Nat) (inner : VErr)
| fieldErr (value : Value) (field : String) (inner : VErr)
| msg (s : String)

/-- A decode outcome distinguishes a returned Go error from a Go panic. -/
inductive Failure where
| verr (e : VErr)
| gopanic (msg : String)

/-- Helper distinguishing panics for the claims. -/
def Failure.isPanic : Failure → Bool
| .gopanic _ => true
| .verr _ => false

/-- Update index `i` of a list functionally (reflect field/element Set). -/
def setIdx {α : Type} : List α → Nat → α → List α
| [], _, _ => []
| _ :: rest, 0, a => a :: rest
| x :: rest, n + 1, a => x :: setIdx rest n a

mutual

/-- decode (decode.go:36-145) specialized to the modelled Go types.  The
Unmarshaler / encoding.TextUnmarshaler interface checks are omitted because
no modelled type implements them; the `[]byte` ↔ string special cases are
omitted because `[]byte` is not among the modelled types.  `cur` is the
current value of the destination slot (Go mutates the slot through a
pointer); the result is the new slot value.  `fuel` bounds the recursion
depth and is a model artifact only. -/
def decode : Nat → Value → GoTy → GoVal → Except Failure GoVal
| 0, _, _, _ => .error (.gopanic "model: recursion fuel exhausted")
| fuel + 1, val, rt, cur =>
  match rt with
  | .tPtr e =>
    -- Fully dereference rt and allocate pointers as necessary.
    let inner := match cur with
      | .vPtr _ (some w) => w
      | _ => zeroValue e
    match decode fuel val e inner with
    | .ok r => .ok (.vPtr e (some r))
    | .error err => .error err
  | _ =>
    -- Fastest case: rt is directly assignable.  Evaluating `val.v.Type()`
    -- in the case clause panics when val is the zero Value.
    match val.v.typeOf with
    | none => .error (.gopanic "reflect: call of reflect.Value.Type on zero Value")
    | some vt =>
      if rt.beq vt then .ok val.v
      else if rt.beq .tIface then .ok (.vIface (some val.v))
      else
        let targetKind := kindFromType rt
        let convRes : Except Failure Value :=
          if val.k ≠ targetKind then
            match convertValue val targetKind with
            | .ok cv => .ok cv
            | .error e => .error (.verr (.msg e))
          else .ok val
        match convRes with
        | .error err => .error err
        | .ok convVal =>
          match convVal.k with
          | .invalid => .error (.gopanic "river/vm: Decode called with invalid value")
          | .number =>
            match convertNumber convVal.v rt with
            | some r => .ok r
            | none => .error (.gopanic "unsupported number conversion")
          | .string => .ok convVal.v
          | .bool =>
            if ¬ rt.beq .tBool then .error (.verr (.typeError convVal (kindFromType rt)))
            else .ok (.vBool (match convVal.v with | .vBool b => b | _ => false))
          | .array => decodeArray fuel convVal rt cur
          | .object => decodeObject fuel convVal rt cur
          | .function => .error (.verr (.msg "cannot assign function type"))
          | .capsule => .error (.verr (.msg "cannot assign type"))

/-- decodeArray (decode.go:147-183). -/
def decodeArray : Nat → Value → GoTy → GoVal → Except Failure GoVal
| 0, _, _, _ => .error (.gopanic "model: recursion fuel exhausted")
| fuel + 1, val, rt, _ =>
  let srcElems : List GoVal :=
    match val.v with
    | .vSlice _ es => es
    | .vArray _ es => es
    | _ => []
  match rt with
  | .tSlice e =>
    match decodeElems fuel val srcElems e 0 with
    | .ok out => .ok (.vSlice e out)
    | .error err => .error err
  | .tArray n e =>
    match decodeElems fuel val (srcElems.take n) e 0 with
    | .ok out => .ok (.vArray e (out ++ (List.replicate (n - srcElems.length) (zeroValue e))))
    | .error err => .error err
  | _ => .error (.verr (.typeError val (kindFromType rt)))

/-- Element loop shared by the slice and array cases of decodeArray: decode
each source element (via Value.Index, which re-wraps through makeValue) into
a fresh zero element of the target element type, wrapping failures in
ElementError. -/
def decodeElems : Nat → Value → List GoVal → GoTy → Nat → Except Failure (List GoVal)
| 0, _, _, _, _ => .error (.gopanic "model: recursion fuel exhausted")
| _, _, [], _, _ => .ok []
| fuel + 1, val, src :: rest, e, i =>
  match makeValue src with
  | .error p => .error (.gopanic p)
  | .ok elemVal =>
    match decode fuel elemVal e (zeroValue e) with
    | .error (.verr err) => .error (.verr (.element val i err))
    | .error (.gopanic p) => .error (.gopanic p)
    | .ok r =>
      match decodeElems fuel val rest e (i + 1) with
      | .ok out => .ok (r :: out)
      | .error err => .error err

/-- decodeObject (decode.go:185-194). -/
def decodeObject : Nat → Value → GoTy → GoVal → Except Failure GoVal
| 0, _, _, _ => .error (.gopanic "model: recursion fuel exhausted")
| fuel + 1, val, rt, cur =>
  match val.v with
  | .vStruct _ _ => decodeStructObject fuel val rt cur
  | .vMap _ _ => decodeMapObject fuel val rt cur
  | _ => .error (.gopanic "river/vm: unexpected object type")

/-- decodeStructObject (decode.go:196-250). -/
def decodeStructObject : Nat → Value → GoTy → GoVal → Except Failure GoVal
| 0, _, _, _ => .error (.gopanic "model: recursion fuel exhausted")
| fuel + 1, val, rt, cur =>
  match val.v, rt with
  | .vStruct sfields _, .tStruct tfields =>
    match getCachedTags sfields, getCachedTags tfields with
    | .error p, _ => .error (.gopanic p)
    | _, .error p => .error (.gopanic p)
    | .ok sourceTags, .ok targetTags =>
      let curVals := match cur with
        | .vStruct _ vs => vs
        | _ => zeroFields tfields
      decodeStructKeys fuel val sourceTags.Keys targetTags tfields curVals
  | .vStruct _ _, .tMap _ => .error (.verr (.msg "struct source into map target not exercised by the claims"))
  | _, _ => .error (.verr (.typeError val (kindFromType rt)))

/-- Key loop of the struct case of decodeStructObject: look up each source
key (ignoring the ok flag), find the same-named field of the target, and
decode into it. -/
def decodeStructKeys : Nat → Value → List String → rivertags.Fields →
    List (String × Option String × GoTy) → List GoVal → Except Failure GoVal
| 0, _, _, _, _, _ => .error (.gopanic "model: recursion fuel exhausted")
| _, _, [], _, tfields, curVals => .ok (.vStruct tfields curVals)
| fuel + 1, val, key :: rest, targetTags, tfields, curVals =>
  match val.Key key with
  | .error p => .error (.gopanic p)
  | .ok (keyValue, _) =>
    match targetTags.Get key with
    | none => .error (.verr (.typeError val (kindFromType (.tStruct tfields))))
    | some target =>
      let fieldTy := (tfields.getD target.Index ("", none, .tIface)).2.2
      let fieldCur := curVals.getD target.Index (zeroValue fieldTy)
      match decode fuel keyValue fieldTy fieldCur with
      | .error (.verr err) => .error (.verr (.fieldErr val key err))
      | .error (.gopanic p) => .error (.gopanic p)
      | .ok r => decodeStructKeys fuel val rest targetTags tfields (setIdx curVals target.Index r)

/-- decodeMapObject (decode.go:252-303). -/
def decodeMapObject : Nat → Value → GoTy → GoVal → Except Failure GoVal
| 0, _, _, _ => .error (.gopanic "model: recursion fuel exhausted")
| fuel + 1, val, rt, cur =>
  match rt with
  | .tStruct tfields =>
    match getCachedTags tfields with
    | .error p => .error (.gopanic p)
    | .ok targetTags =>
      match val.Keys with
      | .error p => .error (.gopanic p)
      | .ok keys =>
        let curVals := match cur with
          | .vStruct _ vs => vs
          | _ => zeroFields tfields
        decodeMapKeys fuel val keys targetTags tfields curVals
  | .tMap e =>
    match val.Keys with
    | .error p => .error (.gopanic p)
    | .ok keys =>
      match decodeMapEntries fuel val keys e with
      | .ok entries => .ok (.vMap e entries)
      | .error err => .error err
  | _ => .error (.verr (.typeError val (kindFromType rt)))

/-- Key loop of the struct case of decodeMapObject.  The ok flag of
`val.Key` is ignored ("We ignore the ok value below because we know it
exists in the map"), so a zero-valued entry yields the zero Value here. -/
def decodeMapKeys : Nat → Value → List String → rivertags.Fields →
    List (String × Option String × GoTy) → List GoVal → Except Failure GoVal
| 0, _, _, _, _, _ => .error (.gopanic "model: recursion fuel exhausted")
| _, _, [], _, tfields, curVals => .ok (.vStruct tfields curVals)
| fuel + 1, val, key :: rest, targetTags, tfields, curVals =>
  match val.Key key with
  | .error p => .error (.gopanic p)
  | .ok (keyValue, _) =>
    match targetTags.Get key with
    | none => .error (.verr (.missingKey keyValue key))
    | some target =>
      let fieldTy := (tfields.getD target.Index ("", none, .tIface)).2.2
      let fieldCur := curVals.getD target.Index (zeroValue fieldTy)
      match decode fuel keyValue fieldTy fieldCur with
      | .error (.verr err) => .error (.verr (.fieldErr val key err))
      | .error (.gopanic p) => .error (.gopanic p)
      | .ok r => decodeMapKeys fuel val rest targetTags tfields (setIdx curVals target.Index r)

/-- Entry loop of the map case of decodeMapObject (again ignoring the ok
flag of `val.Key`). -/
def decodeMapEntries : Nat → Value → List String → GoTy →
    Except Failure (List (String × GoVal))
| 0, _, _, _ => .error (.gopanic "model: recursion fuel exhausted")
| _, _, [], _ => .ok []
| fuel + 1, val, key :: rest, e =>
  match val.Key key with
  | .error p => .error (.gopanic p)
  | .ok (keyValue, _) =>
    match decode fuel keyValue e (zeroValue e) with
    | .error (.verr err) => .error (.verr (.fieldErr val key err))
    | .error (.gopanic p) => .error (.gopanic p)
    | .ok r =>
      match decodeMapEntries fuel val rest e with
      | .ok out => .ok ((key, r) :: out)
      | .error err => .error err

end

/-- Decode (decode.go:23-29): the public entry point; the destination is a
pointer to a slot holding `cur` of type `rt`. -/
def Decode (val : Value) (rt : GoTy) (cur : GoVal) : Except Failure GoVal :=
  decode 1000 val rt cur

end value

/-! ## Package `scanner` (the scanner source file)

The scanner consumes a byte slice.  Bytes are `Nat`s below 256, runes are
`Int` (`-1` is eof, 0xFEFF the byte order mark).  The installed error
handler is modelled by appending to an error list.  Loops carry explicit
fuel and return `none` on exhaustion; every claim instantiates the fuel
generously, and the universal theorems quantify over it.
-/

namespace scanner

/-- Scanner state (scanner.go `Scanner`). -/
structure Scanner where
  input : List Nat
  errs : List (Pos × String)
  includeComments : Bool
  dontInsertTerms : Bool
  ch : Int
  offset : Nat
  readOffset : Nat
  insertTerm : Bool
  numErrors : Nat
  file : File
deriving Repr

/-- onError (scanner.go): invoke the error handler and count the error. -/
def onError (s : Scanner) (offset : Nat) (msg : String) : Scanner :=
  { s with errs := s.errs ++ [((offset : Int), msg)], numErrors := s.numErrors + 1 }

/-- Model of utf8.DecodeRune on the byte list: returns the rune and its
width, (0xFFFD, 1) for invalid encodings, (0xFFFD, 0) for empty input. -/
def utf8DecodeRune : List Nat → Int × Nat
| [] => (0xFFFD, 0)
| b0 :: rest =>
  if b0 < 0x80 then ((b0 : Int), 1)
  else if b0 < 0xC2 then (0xFFFD, 1)
  else if b0 < 0xE0 then
    match rest with
    | b1 :: _ =>
      if 0x80 ≤ b1 ∧ b1 ≤ 0xBF then
        (((b0 - 0xC0) * 0x40 + (b1 - 0x80) : Nat), 2)
      else (0xFFFD, 1)
    | [] => (0xFFFD, 1)
  else if b0 < 0xF0 then
    match rest with
    | b1 :: b2 :: _ =>
      let lo1 := if b0 = 0xE0 then 0xA0 else 0x80
      let hi1 := if b0 = 0xED then 0x9F else 0xBF
      if lo1 ≤ b1 ∧ b1 ≤ hi1 ∧ 0x80 ≤ b2 ∧ b2 ≤ 0xBF then
        (((b0 - 0xE0) * 0x1000 + (b1 - 0x80) * 0x40 + (b2 - 0x80) : Nat), 3)
      else (0xFFFD, 1)
    | _ => (0xFFFD, 1)
  else if b0 < 0xF5 then
    match rest with
    | b1 :: b2 :: b3 :: _ =>
      let lo1 := if b0 = 0xF0 then 0x90 else 0x80
      let hi1 := if b0 = 0xF4 then 0x8F else 0xBF
      if lo1 ≤ b1 ∧ b1 ≤ hi1 ∧ 0x80 ≤ b2 ∧ b2 ≤ 0xBF ∧ 0x80 ≤ b3 ∧ b3 ≤ 0xBF then
        (((b0 - 0xF0) * 0x40000 + (b1 - 0x80) * 0x1000 + (b2 - 0x80) * 0x40 +
          (b3 - 0x80) : Nat), 4)
      else (0xFFFD, 1)
    | _ => (0xFFFD, 1)
  else (0xFFFD, 1)

/-- next advances the scanner and reads the next Unicode character into s.ch;
ch = -1 indicates end of file (scanner.go `next`). -/
def next (s : Scanner) : Scanner :=
  if s.readOffset ≥ s.input.length then
    let s := { s with offset := s.input.length }
    let s := if s.ch = 10 then { s with file := s.file.AddLine (s.offset : Int) } else s
    { s with ch := -1 }
  else
    let s := { s with offset := s.readOffset }
    let s := if s.ch = 10 then { s with file := s.file.AddLine (s.offset : Int) } else s
    let b := s.input.getD s.offset 0
    if b = 0 then
      let s := onError s s.offset "illegal character NUL"
      { s with readOffset := s.readOffset + 1, ch := 0 }
    else if b ≥ 0x80 then
      let rw := utf8DecodeRune (s.input.drop s.offset)
      let s :=
        if rw.1 = 0xFFFD ∧ rw.2 = 1 then onError s s.offset "illegal UTF-8 encoding"
        else if rw.1 = 0xFEFF ∧ s.offset > 0 then onError s s.offset "illegal byte order mark"
        else s
      { s with readOffset := s.readOffset + rw.2, ch := rw.1 }
    else { s with readOffset := s.readOffset + 1, ch := (b : Int) }

/-- New creates a new scanner (scanner.go `New`): preload the first character
and skip a leading byte order mark. -/
def New (filename : String) (input : List Nat) (includeComments dontInsertTerms : Bool) :
    Scanner :=
  let s : Scanner :=
    ⟨input, [], includeComments, dontInsertTerms, 0, 0, 0, false, 0, NewFile filename⟩
  let s := next s
  if s.ch = 0xFEFF then next s else s

/-- lower returns the lowercase of ch if ch is an ASCII letter (scanner.go:
bitwise or with 0x20; negative runes are unchanged, as in Go's two's
complement). -/
def lowerRune (ch : Int) : Int :=
  if 0 ≤ ch then (Nat.lor 0x20 ch.toNat : Nat) else ch

def isDecimal (ch : Int) : Bool := 48 ≤ ch ∧ ch ≤ 57

/-- Model of unicode.IsLetter, reached only for runes at or above 0x80.  The
Unicode tables are abstracted away (no claim scans non-ASCII identifiers);
the universal theorems are insensitive to this function's values. -/
def unicodeIsLetter (_ : Int) : Bool := false

/-- Model of unicode.IsDigit above 0x80 (see `unicodeIsLetter`). -/
def unicodeIsDigit (_ : Int) : Bool := false

/-- isLetter (scanner.go). -/
def isLetter (ch : Int) : Bool :=
  (97 ≤ lowerRune ch ∧ lowerRune ch ≤ 122) ∨ ch = 95 ∨ (ch ≥ 0x80 ∧ unicodeIsLetter ch)

/-- isDigit (scanner.go). -/
def isDigit (ch : Int) : Bool :=
  isDecimal ch ∨ (ch ≥ 0x80 ∧ unicodeIsDigit ch)

/-- peek gets the next byte after the current character without advancing the
scanner; 0 at EOF (scanner.go `peek`). -/
def peek (s : Scanner) : Int :=
  if s.readOffset < s.input.length then (s.input.getD s.readOffset 0 : Int) else 0

/-- skipWhitespace (scanner.go): newlines are preserved while insertTerm is
set. -/
def skipWhitespace : Nat → Scanner → Option Scanner
| 0, _ => none
| fuel + 1, s =>
  if s.ch = 32 ∨ s.ch = 9 ∨ s.ch = 13 ∨ (s.ch = 10 ∧ s.insertTerm = false) then
    skipWhitespace fuel (next s)
  else some s

/-- Decode a byte slice as text.  Exact for ASCII; multi-byte UTF-8 sequences
are abstracted byte-wise (no claim inspects a non-ASCII literal). -/
def bytesText (bs : List Nat) : String :=
  String.mk (bs.map Char.ofNat)

/-- The byte range `input[off:stop]`. -/
def sliceBytes (input : List Nat) (off stop : Nat) : List Nat :=
  (input.take stop).drop off

/-- The ASCII fast-path test of scanIdentifier: letters, digits and
underscore. -/
def asciiIdentByte (b : Nat) : Bool :=
  (97 ≤ b ∧ b ≤ 122) ∨ (65 ≤ b ∧ b ≤ 90) ∨ b = 95 ∨ (48 ≤ b ∧ b ≤ 57)

/-- The slow path of scanIdentifier: after a non-ASCII byte, fall back to
rune-wise scanning (scanner.go scanIdentifier, final loop). -/
def identSlowLoop : Nat → Scanner → Option Scanner
| 0, _ => none
| fuel + 1, s =>
  if isLetter s.ch ∨ isDigit s.ch then identSlowLoop fuel (next s)
  else some s

/-- The ASCII fast-path loop of scanIdentifier (scanner.go scanIdentifier):
consume ASCII identifier bytes; on a plain ASCII delimiter update ch/offsets
directly; on NUL or a non-ASCII byte re-enter `next` and the slow loop; at
the end of input set everything to EOF. -/
def identLoop : Nat → Scanner → Option Scanner
| 0, _ => none
| fuel + 1, s =>
  if s.readOffset < s.input.length then
    let b := s.input.getD s.readOffset 0
    if asciiIdentByte b then identLoop fuel { s with readOffset := s.readOffset + 1 }
    else if 0 < b ∧ b < 0x80 then
      some { s with ch := (b : Int), offset := s.readOffset, readOffset := s.readOffset + 1 }
    else identSlowLoop fuel (next s)
  else
    some { s with offset := s.input.length, readOffset := s.input.length, ch := -1 }

/-- scanIdentifier (scanner.go): must only be called when s.ch is a valid
letter; returns the literal. -/
def scanIdentifier (fuel : Nat) (s : Scanner) : Option (String × Scanner) :=
  let off := s.offset
  match identLoop fuel s with
  | none => none
  | some s => some (bytesText (sliceBytes s.input off s.offset), s)

/-- digits scans a run of decimal digits, returning the count
(scanner.go `digits`). -/
def digits : Nat → Scanner → Option (Nat × Scanner)
| 0, _ => none
| fuel + 1, s =>
  if isDecimal s.ch then
    match digits fuel (next s) with
    | none => none
    | some (n, s) => some (n + 1, s)
  else some (0, s)

/-- The integer part of scanNumber (scanner.go scanNumber, first step):
unless the number starts with '.', consume digits. -/
def scanNumInt (fuel : Nat) (s : Scanner) : Option Scanner :=
  if s.ch ≠ 46 then
    match digits fuel s with
    | none => none
    | some (_, s) => some s
  else some s

/-- The fractional part of scanNumber: a '.' switches the token to FLOAT and
consumes digits. -/
def scanNumFrac (fuel : Nat) (tok : Token) (s : Scanner) : Option (Token × Scanner) :=
  if s.ch = 46 then
    match digits fuel (next s) with
    | none => none
    | some (_, s) => some (Token.FLOAT, s)
  else some (tok, s)

/-- The exponent part of scanNumber: an 'e'/'E' switches the token to FLOAT,
consumes an optional sign and digits, and reports "exponent has no digits"
when none follow. -/
def scanNumExp (fuel : Nat) (tok : Token) (off : Nat) (s : Scanner) :
    Option (Token × Scanner) :=
  if lowerRune s.ch = 101 then
    let s := next s
    let s := if s.ch = 43 ∨ s.ch = 45 then next s else s
    match digits fuel s with
    | none => none
    | some (n, s) =>
      let s := if n = 0 then onError s off "exponent has no digits" else s
      some (Token.FLOAT, s)
  else some (tok, s)

/-- scanNumber (scanner.go): integer part, optional fraction, optional
exponent; an exponent with no digits is reported but still yields FLOAT. -/
def scanNumber (fuel : Nat) (s : Scanner) : Option (Token × String × Scanner) :=
  let off := s.offset
  match scanNumInt fuel s with
  | none => none
  | some s =>
    match scanNumFrac fuel Token.NUMBER s with
    | none => none
    | some (tok, s) =>
      match scanNumExp fuel tok off s with
      | none => none
      | some (tok, s) => some (tok, bytesText (sliceBytes s.input off s.offset), s)

/-- digitVal (scanner.go). -/
def digitVal (ch : Int) : Nat :=
  if 48 ≤ ch ∧ ch ≤ 57 then (ch - 48).toNat
  else if 97 ≤ lowerRune ch ∧ lowerRune ch ≤ 102 then (lowerRune ch - 97).toNat + 10
  else 16

/-- The digit-consuming loop of scanEscape (`for n > 0`), accumulating the
escape value. -/
def escDigits : Nat → Nat → Nat → Nat → Scanner → Option (Nat × Scanner) × Bool
| 0, _, _, _, s => (some (0, s), true)
| n + 1, x, base, off, s =>
  let d := digitVal s.ch
  if d ≥ base then
    let msg := if s.ch = -1 then "escape sequence not terminated"
      else "illegal character in escape sequence"
    ((some (x, onError s off msg)), false)
  else escDigits n (x * base + d) base off (next s)

/-- scanEscape (scanner.go): stops at the offending character on error. -/
def scanEscape (s : Scanner) : Scanner :=
  let off := s.offset
  if s.ch = 97 ∨ s.ch = 98 ∨ s.ch = 102 ∨ s.ch = 110 ∨ s.ch = 114 ∨ s.ch = 116 ∨
      s.ch = 118 ∨ s.ch = 92 ∨ s.ch = 34 then
    next s
  else
    let spec : Option (Nat × Nat × Nat × Scanner) :=
      if 48 ≤ s.ch ∧ s.ch ≤ 55 then some (3, 8, 255, s)
      else if s.ch = 120 then some (2, 16, 255, next s)
      else if s.ch = 117 then some (4, 16, 0x10FFFF, next s)
      else if s.ch = 85 then some (8, 16, 0x10FFFF, next s)
      else none
    match spec with
    | none =>
      let msg := if s.ch = -1 then "escape sequence not terminated"
        else "unknown escape sequence"
      onError s off msg
    | some (n, base, mx, s) =>
      match escDigits n 0 base off s with
      | (some (x, s), ok) =>
        if ok then
          if x > mx ∨ (0xD800 ≤ x ∧ x < 0xE000) then
            onError s off "escape sequence is invalid Unicode code point"
          else s
        else s
      | (none, _) => s

/-- The character loop of scanString (scanner.go). -/
def stringLoop : Nat → Nat → Scanner → Option Scanner
| 0, _, _ => none
| fuel + 1, off, s =>
  let ch := s.ch
  if ch = 10 ∨ ch = -1 then some (onError s off "string literal not terminated")
  else
    let s := next s
    if ch = 34 then some s
    else if ch = 92 then stringLoop fuel off (scanEscape s)
    else stringLoop fuel off s

/-- scanString (scanner.go): the opening quote was already consumed. -/
def scanString (fuel : Nat) (s : Scanner) : Option (String × Scanner) :=
  let off := s.offset - 1
  match stringLoop fuel off s with
  | none => none
  | some s => some (bytesText (sliceBytes s.input off s.offset), s)

/-- stripCR (scanner.go). -/
def stripCR (bs : List Nat) : List Nat :=
  bs.filter (fun b => b ≠ 13)

/-- The character loop of scanComment, counting carriage returns. -/
def commentLoop : Nat → Nat → Scanner → Option (Nat × Scanner)
| 0, _, _ => none
| fuel + 1, numCR, s =>
  if s.ch ≠ 10 ∧ s.ch ≠ -1 then
    commentLoop fuel (if s.ch = 13 then numCR + 1 else numCR) (next s)
  else some (numCR, s)

/-- scanComment (scanner.go): the opening '#' was already consumed; a final
"\r" (from Windows "\r\n") is removed, further CRs are stripped. -/
def scanComment (fuel : Nat) (s : Scanner) : Option (String × Scanner) :=
  let off := s.offset - 1
  match commentLoop fuel 0 s with
  | none => none
  | some (numCR, s) =>
    let lit := sliceBytes s.input off s.offset
    let (lit, numCR) :=
      if numCR > 0 ∧ lit.length ≥ 1 ∧ lit.getLast? = some 13 then
        (lit.dropLast, numCR - 1)
      else (lit, numCR)
    let lit := if numCR > 0 then stripCR lit else lit
    some (bytesText lit, s)

/-- switch2 (scanner.go): two-character operator lookahead. -/
def switch2 (s : Scanner) (tok0 tok1 : Token) (nextCh : Int) : Token × Scanner :=
  if s.ch = nextCh then (tok1, next s)
  else (tok0, s)

/-- Fuel for the bounded inner loops; one unit per input byte plus slack. -/
def loopFuel (s : Scanner) : Nat := s.input.length + 2

/-- End-of-Scan flag update (scanner.go:299-301): the computed insertTerm is
stored unless the test-only dontInsertTerms mode is set. -/
def finish (s : Scanner) (insertTerm : Bool) : Scanner :=
  if s.dontInsertTerms = false then { s with insertTerm := insertTerm } else s

/-- The two-character operator cases of the Scan switch ('!' '=' '<' '>'),
each pairing the one-character token with its '='-suffixed form. -/
def twoCharTable : List (Int × (Token × Token)) :=
  [(33, (.NOT, .NEQ)), (61, (.ASSIGN, .EQ)), (60, (.LT, .LTE)), (62, (.GT, .GTE))]

def twoCharOp (ch : Int) : Option (Token × Token) :=
  twoCharTable.lookup ch

/-- The single-character operator and punctuator cases of the Scan switch,
each of which just assigns the token. -/
def singleTokTable : List (Int × Token) :=
  [(43, .ADD), (45, .SUB), (42, .MUL), (47, .DIV), (37, .MOD), (94, .POW),
   (123, .LCURLY), (125, .RCURLY), (40, .LPAREN), (41, .RPAREN),
   (91, .LBRACKET), (93, .RBRACKET), (44, .COMMA), (46, .DOT)]

def singleTok (ch : Int) : Option Token :=
  singleTokTable.lookup ch

/-- Scan (scanner.go `Scan`): returns the next token with its position and
literal.  The outer fuel only pays for the `goto scanAgain` taken when a
comment is skipped. -/
def Scan : Nat → Scanner → Option (Scanner × Pos × Token × String)
| 0, _ => none
| fuel + 1, s0 =>
  match skipWhitespace (loopFuel s0) s0 with
  | none => none
  | some s =>
    let pos : Pos := (s.offset : Int)
    if isLetter s.ch then
      match scanIdentifier (loopFuel s) s with
      | none => none
      | some (lit, s) =>
        if lit.length > 1 then
          let tok := Token.lookup lit
          let insertTerm := tok = .IDENT ∨ tok = .NULL ∨ tok = .BOOL
          some (finish s insertTerm, pos, tok, lit)
        else
          some (finish s true, pos, .IDENT, lit)
    else if isDecimal s.ch ∨ (s.ch = 46 ∧ isDecimal (peek s)) then
      match scanNumber (loopFuel s) s with
      | none => none
      | some (tok, lit, s) => some (finish s true, pos, tok, lit)
    else
      let ch := s.ch
      let s := next s
      if ch = -1 then
        if s.insertTerm then
          some ({ s with insertTerm := false }, pos, .TERMINATOR, "\n")
        else
          some (finish s false, pos, .EOF, "")
      else if ch = 10 then
        -- only reachable when insertTerm is set; skipWhitespace absorbs
        -- other newlines
        some ({ s with insertTerm := false }, pos, .TERMINATOR, "\n")
      else if ch = 34 then
        match scanString (loopFuel s) s with
        | none => none
        | some (lit, s) => some (finish s true, pos, .STRING, lit)
      else if ch = 124 then
        let s := if s.ch ≠ 124 then onError s s.offset "missing second | in logical OR"
          else next s
        some (finish s false, pos, .OR, "")
      else if ch = 38 then
        let s := if s.ch ≠ 38 then onError s s.offset "missing second & in logical AND"
          else next s
        some (finish s false, pos, .AND, "")
      else if ch = 35 then
        if s.insertTerm then
          -- reset the scanner to the start of the comment and force a
          -- terminator
          some ({ s with ch := 35, offset := pos.toNat, readOffset := pos.toNat + 1, insertTerm := false }, pos, .TERMINATOR, "\n")
        else
          match scanComment (loopFuel s) s with
          | none => none
          | some (lit, s) =>
            if s.includeComments = false then
              Scan fuel { s with insertTerm := false }
            else
              some (finish s false, pos, .COMMENT, lit)
      else
        match twoCharOp ch with
        | some (t0, t1) =>
          let ts := switch2 s t0 t1 61
          some (finish ts.2 false, pos, ts.1, "")
        | none =>
          match singleTok ch with
          | some tok => some (finish s false, pos, tok, "")
          | none =>
            -- illegal character; invalid BOMs were already reported by next().
            -- Go formats the rune with %#U; the message is modelled with the
            -- decimal code point (no claim inspects this error's text)
            let s := if ch ≠ 0xFEFF then
                onError s pos.toNat ("illegal character " ++ toString ch)
              else s
            some (finish s s.insertTerm, pos, .ILLEGAL,
              String.mk [Char.ofNat ch.toNat])

/-- Run the scanner repeatedly, collecting tokens until EOF (exclusive);
returns the tokens and the position of EOF. -/
def scanAll : Nat → Scanner → Option (List (Pos × Token × String) × Pos)
| 0, _ => none
| fuel + 1, s =>
  match Scan (s.input.length + 2) s with
  | none => none
  | some (s, pos, tok, lit) =>
    if tok = .EOF then some ([], pos)
    else
      match scanAll fuel s with
      | none => none
      | some (rest, eofPos) => some ((pos, tok, lit) :: rest, eofPos)

/-- Encode a source string as the scanner's input bytes.  All claim inputs
are ASCII, where this agrees with UTF-8. -/
def strBytes (src : String) : List Nat :=
  src.toList.map Char.toNat

/-- Tokenize a source string with the parser's scanner configuration
(mode 0). -/
def tokenize (src : String) : Option (List (Pos × Token × String) × Pos) :=
  scanAll (src.length + 2) (New "" (strBytes src) false false)

/-- The state of the scanner after scanning the first `n` tokens of `src`
(parser's configuration). -/
def stateAfter (n : Nat) (src : String) : Option Scanner :=
  let rec go : Nat → Scanner → Option Scanner
  | 0, s => some s
  | k + 1, s =>
    match Scan (s.input.length + 2) s with
    | none => none
    | some (s, _, _, _) => go k s
  go n (New "" (strBytes src) false false)

end scanner

/-- The three scanner fields that determine terminator insertion: the
insertTerm flag and the two mode bits (which Scan alone modifies). -/
def modeOf (s : scanner.Scanner) : Bool × Bool × Bool :=
  (s.insertTerm, s.dontInsertTerms, s.includeComments)

/-- The claimed and actual insertTerm value after a returned token: set
after identifier, number, float, string, bool and null; an ILLEGAL token
preserves the previous value; every other class (including the closing
punctuators, diverging from the spec) clears it. -/
def flagSpec (tok : Token) (prev : Bool) : Bool :=
  match tok with
  | .IDENT => true
  | .NUMBER => true
  | .FLOAT => true
  | .STRING => true
  | .BOOL => true
  | .NULL => true
  | .ILLEGAL => prev
  | _ => false

/-! ## Spec-side definitions used for refinement-style claims -/

/-- The routing rule of string-to-number conversion exactly as the spec words
it: "parse: leading `-` → signed; contains `.eE` → float; else unsigned;
empty → error". -/
inductive StrNumRoute where
| emptyError
| signed
| float
| unsigned
deriving DecidableEq, Repr

/-- Spec-side routing (written from the spec sentence, to be compared with
`value.convertValue` from the source). -/
def specStringToNumberRoute (s : String) : StrNumRoute :=
  if s = "" then .emptyError
  else if s.front = '-' then .signed
  else if s.toList.any (fun c => c = '.' ∨ c = 'e' ∨ c = 'E') then .float
  else .unsigned

/-- The struct target used for the C10 map-decoding demonstration:
`struct { A int64 `river:"a,key"` }`. -/
def c10Target : GoTy := .tStruct [("A", some "a,key", .tInt64)]

/-- A map-backed object value whose entries are given explicitly. -/
def mapValue (entries : List (String × GoVal)) : value.Value :=
  ⟨.vMap .tInt64 entries, .object⟩

/-! ## Package `value`, operator evaluation (ops.go first revision) -/

namespace value

/-- value.Uint / Int / Float / String / Bool (value.go:17-30), with an `of`
prefix because the Go names collide with Lean's own type names. -/
def ofUint (u : Nat) : Value := ⟨.vUint64 u, .number⟩

def ofInt (i : Int) : Value := ⟨.vInt64 i, .number⟩

def ofFloat (f : F64) : Value := ⟨.vFloat64 f, .number⟩

def ofString (s : String) : Value := ⟨.vString s, .string⟩

def ofBool (b : Bool) : Value := ⟨.vBool b, .bool⟩

/-- value.Array (value.go:45-58): a KindArray value backed by a slice of
empty-interface cells holding the members' Go values (the empty call yields
the nil interface slice of `Encode`). -/
def arrayOf (vv : List Value) : Value :=
  ⟨.vSlice .tIface (vv.map fun v => GoVal.vIface (some v.v)), .array⟩

/-- Value.Int (value.go:177-190): the number as an int64 — floats truncate
toward zero, uints reinterpret.  `none` models the Go panic on a
non-number. -/
def Value.Int' (v : Value) : Option Int :=
  match v.v with
  | .vInt64 i => some i
  | .vUint64 u => some (toI64 u)
  | .vFloat64 f => some f.toInt
  | _ => none

/-- value.Unary (ops.go:14-35).  All failure paths are Go panics, surfaced
as `.gopanic`. -/
def Unary (op : Token) (val : Value) : Except Failure Value :=
  match op with
  | .NOT =>
    if val.k ≠ .bool then
      .error (.gopanic "river/vm: binary operation done on non-boolean value")
    else
      match val.v with
      | .vBool b => pure (ofBool (!b))
      | _ => .error (.gopanic "reflect: call of reflect.Value.Bool on non-bool Value")
  | .SUB =>
    if val.k ≠ .number then
      .error (.gopanic "river/vm: binary operation done on non-number value")
    else
      match val.v with
      | .vInt64 i => pure (ofInt (i64neg i))
      | .vUint64 u => pure (ofInt (i64neg (toI64 u)))
      | .vFloat64 f => pure (ofFloat f.neg)
      | _ => .error (.gopanic "river/vm: makeNumberKind called with unsupported Kind value")
  | _ => .error (.gopanic ("unrecognized binary operator " ++ op.text))

/-- value.logicalBinop (ops.go:51-65). -/
def logicalBinop (left : Value) (op : Token) (right : Value) : Except Failure Value :=
  if left.k ≠ .bool ∨ right.k ≠ .bool then
    .error (.gopanic "river/vm: binary operation done on non-boolean value")
  else
    match left.v, right.v with
    | .vBool a, .vBool b =>
      match op with
      | .OR => pure (ofBool (a || b))
      | .AND => pure (ofBool (a && b))
      | _ => .error (.gopanic ("unrecognized binary operator " ++ op.text))
    | _, _ => .error (.gopanic "reflect: call of reflect.Value.Bool on non-bool Value")

/-- intPow (ops.go:185-194) instantiated at int64: `m == 0` gives 1, and
otherwise the loop `for i := 2; i <= m; i++` multiplies the seed n into the
result m-1 times with int64 wrapping; a negative m never enters the loop and
yields n itself. -/
def intPowI (n m : Int) : Int :=
  if m = 0 then 1
  else (List.range (m - 1).toNat).foldl (fun acc _ => i64mul acc n) n

/-- intPow (ops.go:185-194) instantiated at uint64. -/
def intPowU (n m : Nat) : Nat :=
  if m = 0 then 1
  else (List.range (m - 1)).foldl (fun acc _ => u64mul acc n) n

/-- value.numericalBinop (ops.go:66-183): fit the operand kinds, then apply
the operator at that kind.  Go's int64/uint64 `/` and `%` panic at run time
on a zero divisor ("runtime error: integer divide by zero"); the source has
no divisor check, so the embedding surfaces those panics explicitly.
newNumberValue's panic on a non-number operand is the `.gopanic` of the
outer match. -/
def numericalBinop (left : Value) (op : Token) (right : Value) : Except Failure Value :=
  match newNumberValue left.v, newNumberValue right.v with
  | some leftV, some rightV =>
    let nk := fitNumberKinds leftV.k rightV.k
    match op, nk with
    | .EQ, .int => pure (ofBool (leftV.Int == rightV.Int))
    | .EQ, .uint => pure (ofBool (leftV.Uint == rightV.Uint))
    | .EQ, .float => pure (ofBool (F64.beq leftV.Float rightV.Float))
    | .NEQ, .int => pure (ofBool (leftV.Int != rightV.Int))
    | .NEQ, .uint => pure (ofBool (leftV.Uint != rightV.Uint))
    | .NEQ, .float => pure (ofBool (!F64.beq leftV.Float rightV.Float))
    | .LT, .int => pure (ofBool (leftV.Int < rightV.Int))
    | .LT, .uint => pure (ofBool (leftV.Uint < rightV.Uint))
    | .LT, .float => pure (ofBool (F64.blt leftV.Float rightV.Float))
    | .LTE, .int => pure (ofBool (leftV.Int ≤ rightV.Int))
    | .LTE, .uint => pure (ofBool (leftV.Uint ≤ rightV.Uint))
    | .LTE, .float => pure (ofBool (F64.ble leftV.Float rightV.Float))
    | .GT, .int => pure (ofBool (rightV.Int < leftV.Int))
    | .GT, .uint => pure (ofBool (rightV.Uint < leftV.Uint))
    | .GT, .float => pure (ofBool (F64.blt rightV.Float leftV.Float))
    | .GTE, .int => pure (ofBool (rightV.Int ≤ leftV.Int))
    | .GTE, .uint => pure (ofBool (rightV.Uint ≤ leftV.Uint))
    | .GTE, .float => pure (ofBool (F64.ble rightV.Float leftV.Float))
    | .ADD, .int => pure (ofInt (i64add leftV.Int rightV.Int))
    | .ADD, .uint => pure (ofUint (u64add leftV.Uint rightV.Uint))
    | .ADD, .float => pure (ofFloat (F64.add leftV.Float rightV.Float))
    | .SUB, .int => pure (ofInt (i64sub leftV.Int rightV.Int))
    | .SUB, .uint => pure (ofUint (u64sub leftV.Uint rightV.Uint))
    | .SUB, .float => pure (ofFloat (F64.sub leftV.Float rightV.Float))
    | .MUL, .int => pure (ofInt (i64mul leftV.Int rightV.Int))
    | .MUL, .uint => pure (ofUint (u64mul leftV.Uint rightV.Uint))
    | .MUL, .float => pure (ofFloat (F64.mul leftV.Float rightV.Float))
    | .DIV, .int =>
      if rightV.Int = 0 then .error (.gopanic "runtime error: integer divide by zero")
      else pure (ofInt (i64quot leftV.Int rightV.Int))
    | .DIV, .uint =>
      if rightV.Uint = 0 then .error (.gopanic "runtime error: integer divide by zero")
      else pure (ofUint (leftV.Uint / rightV.Uint))
    | .DIV, .float => pure (ofFloat (F64.div leftV.Float rightV.Float))
    | .MOD, .int =>
      if rightV.Int = 0 then .error (.gopanic "runtime error: integer divide by zero")
      else pure (ofInt (i64rem leftV.Int rightV.Int))
    | .MOD, .uint =>
      if rightV.Uint = 0 then .error (.gopanic "runtime error: integer divide by zero")
      else pure (ofUint (leftV.Uint % rightV.Uint))
    | .MOD, .float => pure (ofFloat (F64.fmod leftV.Float rightV.Float))
    | .POW, .int => pure (ofInt (intPowI leftV.Int rightV.Int))
    | .POW, .uint => pure (ofUint (intPowU leftV.Uint rightV.Uint))
    | .POW, .float => pure (ofFloat (F64.fpow leftV.Float rightV.Float))
    | _, _ => .error (.gopanic ("unrecognized binary operator " ++ op.text))
  | _, _ => .error (.gopanic "river/vm: unrecognized Go number type")

/-- value.Binop (ops.go:42-50): logical operators route to logicalBinop,
everything else to numericalBinop. -/
def Binop (left : Value) (op : Token) (right : Value) : Except Failure Value :=
  if op = .AND ∨ op = .OR then logicalBinop left op right
  else numericalBinop left op right

end value

/-! ## Package `ast` (ast/ast.go) -/

namespace ast

/-- Expr is an overall expression in the AST (ast.go).  ObjectField is
carried inline as (Name, NamePos, Quoted, Value); the later parser revision
appends `p.parseField()` to the field list even when it is nil, so an object
field is optional.  The later ast revision has a ParenExpr, which the cited
StartPos/EndPos visitors do not handle (they panic on it). -/
inductive Expr where
| lit (kind : Token) (value : String) (valuePos : Pos)
| array (elements : List Expr) (lbracket rbracket : Pos)
| object (fields : List (Option (String × Pos × Bool × Expr))) (lcurly rcurly : Pos)
| ident (name : String) (namePos : Pos)
| access (value : Expr) (name : String) (namePos : Pos)
| index (value : Expr) (idx : Expr) (lbracket rbracket : Pos)
| call (value : Expr) (args : List Expr) (lparen rparen : Pos)
| unary (kind : Token) (expression : Expr) (kindPos : Pos)
| binary (kind : Token) (kindPos : Pos) (left right : Expr)
| paren (lparen : Pos) (inner : Expr) (rparen : Pos)

/-- Stmt is a statement within the body of a file or block (ast.go).  The
attribute's Name identifier is carried as the name and its position. -/
inductive Stmt where
| attribute (name : String) (namePos : Pos) (value : Expr)
| block (name : List String) (namePos : Pos) (label : String) (body : List Stmt)
    (lcurly rcurly : Pos)

/-- StartPos (ast.go:177-214) on expressions.  `none` models the default
panic ("Unrecognized Node type"), reached for the later revision's
ParenExpr. -/
def Expr.StartPos : Expr → Option Pos
| .lit _ _ p => some p
| .array _ lb _ => some lb
| .object _ lc _ => some lc
| .ident _ p => some p
| .access _ _ p => some p
| .index v _ _ _ => v.StartPos
| .call v _ _ _ => v.StartPos
| .unary _ _ p => some p
| .binary _ _ l _ => l.StartPos
| .paren _ _ _ => none

/-- EndPos (ast.go:218-256) on expressions (the first character immediately
following the node). -/
def Expr.EndPos : Expr → Option Pos
| .lit _ v p => some (p + (v.length : Int))
| .array _ _ rb => some rb
| .object _ _ rc => some rc
| .ident n p => some (p + (n.length : Int))
| .access v _ _ => v.EndPos
| .index _ _ _ rb => some rb
| .call _ _ _ rp => some rp
| .unary _ e _ => e.EndPos
| .binary _ _ _ r => r.EndPos
| .paren _ _ _ => none

/-- StartPos (ast.go) on statements. -/
def Stmt.StartPos : Stmt → Option Pos
| .attribute _ p _ => some p
| .block _ p _ _ _ _ => some p

/-- EndPos (ast.go) on statements. -/
def Stmt.EndPos : Stmt → Option Pos
| .attribute _ _ v => v.EndPos
| .block _ _ _ _ _ rc => some rc

end ast

namespace scanner

/-- scanAll, also returning the errors the scanner reported (the parser's
error callback appends them to its own list). -/
def scanAllE : Nat → Scanner → Option (List (Pos × Token × String) × Pos × List (Pos × String))
| 0, _ => none
| fuel + 1, s =>
  match Scan (s.input.length + 2) s with
  | none => none
  | some (s, pos, tok, lit) =>
    if tok = .EOF then some ([], pos, s.errs)
    else
      match scanAllE fuel s with
      | none => none
      | some (rest, eofPos, errs) => some ((pos, tok, lit) :: rest, eofPos, errs)

/-- Tokenize a source string with the parser's configuration, keeping the
scanner's reported errors.  The Go parser pulls tokens lazily; scanning
eagerly is equivalent except that scan errors past the parser's stopping
point would be missing in Go's list (no claim input has any). -/
def tokenizeE (src : String) : Option (List (Pos × Token × String) × Pos × List (Pos × String)) :=
  scanAllE (src.length + 2) (New "" (strBytes src) false false)

end scanner

/-! ## Package `parser` (the parser source file) -/

namespace parser

/-- The parser state (parser struct): the not-yet-consumed token stream
stands for the scanner, `eofPos` is where Scan will report EOF, and `errs`
models token.ErrorList as (offset, message) pairs — the PositionFor
conversion applied when adding an error is position formatting only and is
left out; the claims only compare error lists against []. -/
structure ParserS where
  toks : List (Pos × Token × String)
  eofPos : Pos
  errs : List (Pos × String)
  pos : Pos
  tok : Token
  lit : String

/-- p.next (parser.go:61): advance to the next token; at the end of the
stream the scanner keeps returning EOF at the eof position. -/
def pNext (p : ParserS) : ParserS :=
  match p.toks with
  | [] => { p with pos := p.eofPos, tok := .EOF, lit := "" }
  | (pos, tok, lit) :: rest => { p with toks := rest, pos := pos, tok := tok, lit := lit }

/-- p.addError (parser.go:100-105). -/
def addError (p : ParserS) (msg : String) : ParserS :=
  { p with errs := p.errs ++ [(p.pos, msg)] }

/-- errors.Add at an explicit position (used for blockName errors). -/
def addErrorAt (p : ParserS) (pos : Pos) (msg : String) : ParserS :=
  { p with errs := p.errs ++ [(pos, msg)] }

/-- p.expect (parser.go:84-91): returns the current (pos, tok, lit), adding
an error when the token is not the expected one, and always advances. -/
def expect (p : ParserS) (t : Token) : (Pos × Token × String) × ParserS :=
  let r := (p.pos, p.tok, p.lit)
  let p := if p.tok ≠ t then addError p ("expected " ++ t.text ++ ", got " ++ p.tok.text) else p
  (r, pNext p)

/-- p.allow (parser.go:94-98): consume an optional token. -/
def allow (p : ParserS) (t : Token) : ParserS :=
  if p.tok = t then pNext p else p

/-- p.advance (parser.go:64-71): consume tokens up to (but not including)
`to` or EOF. -/
def advance : Nat → ParserS → Token → Option ParserS
| 0, _, _ => none
| fuel + 1, p, tgt =>
  if p.tok = .EOF then some p
  else if p.tok = tgt then some p
  else advance fuel (pNext p) tgt

/-- p.advanceSet (parser.go:75-82). -/
def advanceSet : Nat → ParserS → List Token → Option ParserS
| 0, _, _ => none
| fuel + 1, p, tgt =>
  if p.tok = .EOF then some p
  else if tgt.contains p.tok then some p
  else advanceSet fuel (pNext p) tgt

/-- The statementEnd set (parser.go:504-510). -/
def statementEnd : List Token := [.TERMINATOR, .RPAREN, .RCURLY, .RBRACKET, .COMMA]

/-- The fieldStarter set (parser.go:582-585). -/
def fieldStarter : List Token := [.STRING, .IDENT]

/-- tokPrec (parser.go:316-332). -/
def tokPrec : Token → Int
| .OR => 1
| .AND => 2
| .EQ => 3
| .NEQ => 3
| .LT => 3
| .LTE => 3
| .GT => 3
| .GTE => 3
| .ADD => 4
| .SUB => 4
| .MUL => 5
| .DIV => 5
| .MOD => 5
| .POW => 6
| _ => 0

/-- isUnaryOp (parser.go:428-434). -/
def isUnaryOp (t : Token) : Bool := t = .NOT ∨ t = .SUB

/-- blockName (parser.go:246-252). -/
structure BlockName where
  Fragments : List String
  Label : String
  Start : Pos
  LabelPos : Pos

/-- blockName.ValidAttribute (parser.go:256-258). -/
def BlockName.ValidAttribute (n : BlockName) : Bool :=
  n.Fragments.length = 1 ∧ n.Label = ""

/-- The `{ "." identifier }` loop of parseBlockName (parser.go:220-229):
consume the dot, report a missing identifier but still take the literal,
and advance. -/
def blockNameDots : Nat → ParserS → List String → Option (List String × ParserS)
| 0, _, _ => none
| fuel + 1, p, acc =>
  if p.tok = .DOT then
    let p := pNext p
    let p := if p.tok ≠ .IDENT then addError p ("expected identifier, got " ++ p.tok.text) else p
    blockNameDots fuel (pNext p) (acc ++ [p.lit])
  else some (acc, p)

/-- Strip the first and last character (the Go slice lit[1 : len(lit)-1]
used to unquote labels and field names). -/
def strSlice1 (s : String) : String :=
  String.mk ((s.toList.drop 1).take (s.toList.length - 2))

/-- parseBlockName (parser.go:207-244); `none` inside the pair is Go's nil
blockName. -/
def parseBlockName (fuel : Nat) (p : ParserS) : Option (Option BlockName × ParserS) :=
  if p.tok ≠ .IDENT then
    some (none, addError p ("expected identifier, got " ++ p.tok.text))
  else
    let frag0 := p.lit
    let start := p.pos
    match blockNameDots fuel (pNext p) [frag0] with
    | none => none
    | some (frags, p) =>
      if p.tok ≠ .ASSIGN ∧ p.tok ≠ .LCURLY then
        if p.tok = .STRING then
          some (some ⟨frags, strSlice1 p.lit, start, p.pos⟩, pNext p)
        else
          some (some ⟨frags, "", start, 0⟩,
            pNext (addError p ("expected block label, got " ++ p.tok.text)))
      else some (some ⟨frags, "", start, 0⟩, p)

mutual

/-- parseBinOp (parser.go:284-314): precedence climbing with the incoming
precedence floor; the left-associative collection loop is `binOpLoop`. -/
def parseBinOp : Nat → ParserS → Int → Option (ast.Expr × ParserS)
| 0, _, _ => none
| fuel + 1, p, inPrec =>
  match parsePowExpr fuel p with
  | none => none
  | some (lhs, p) => binOpLoop fuel p inPrec lhs

/-- The `for` loop of parseBinOp: stop when the next operator's precedence
drops below the floor, otherwise consume it and recurse at prec+1. -/
def binOpLoop : Nat → ParserS → Int → ast.Expr → Option (ast.Expr × ParserS)
| 0, _, _, _ => none
| fuel + 1, p, inPrec, lhs =>
  let tok := p.tok
  let pos := p.pos
  let prec := tokPrec p.tok
  if prec < inPrec then some (lhs, p)
  else
    match parseBinOp fuel (pNext p) (prec + 1) with
    | none => none
    | some (rhs, p) => binOpLoop fuel p inPrec (.binary tok pos lhs rhs)

/-- parsePowExpr (parser.go:338-354): the right-associative `^`, recursing
at the same level. -/
def parsePowExpr : Nat → ParserS → Option (ast.Expr × ParserS)
| 0, _ => none
| fuel + 1, p =>
  match parseUnaryExpr fuel p with
  | none => none
  | some (lhs, p) =>
    if p.tok = .POW then
      let pos := p.pos
      match parsePowExpr fuel (pNext p) with
      | none => none
      | some (rhs, p) => some (.binary .POW pos lhs rhs, p)
    else some (lhs, p)

/-- parseUnaryExpr (parser.go:364-426). -/
def parseUnaryExpr : Nat → ParserS → Option (ast.Expr × ParserS)
| 0, _ => none
| fuel + 1, p =>
  if isUnaryOp p.tok then
    let op := p.tok
    let pos := p.pos
    match parseUnaryExpr fuel (pNext p) with
    | none => none
    | some (e, p) => some (.unary op e pos, p)
  else
    match parsePrimaryExpr fuel p with
    | none => none
    | some (primary, p) => operLoop fuel p primary

/-- The NextOper loop of parseUnaryExpr: chained access, index and call
suffixes. -/
def operLoop : Nat → ParserS → ast.Expr → Option (ast.Expr × ParserS)
| 0, _, _ => none
| fuel + 1, p, primary =>
  if p.tok = .DOT then
    let r1 := expect p .DOT
    let r2 := expect r1.2 .IDENT
    operLoop fuel r2.2 (.access primary r2.1.2.2 r2.1.1)
  else if p.tok = .LBRACKET then
    let r1 := expect p .LBRACKET
    match parseBinOp fuel r1.2 1 with
    | none => none
    | some (idx, p) =>
      let r2 := expect p .RBRACKET
      operLoop fuel r2.2 (.index primary idx r1.1.1 r2.1.1)
  else if p.tok = .LPAREN then
    let r1 := expect p .LPAREN
    match (if r1.2.tok ≠ .RPAREN then
        (parseExpressionList fuel r1.2 .RPAREN).map (fun r => (r.1, allow r.2 .COMMA))
      else some ([], r1.2)) with
    | none => none
    | some (args, p) =>
      let r2 := expect p .RPAREN
      operLoop fuel r2.2 (.call primary args r1.1.1 r2.1.1)
  else some (primary, p)

/-- parsePrimaryExpr (parser.go:445-502). -/
def parsePrimaryExpr : Nat → ParserS → Option (ast.Expr × ParserS)
| 0, _ => none
| fuel + 1, p =>
  if p.tok = .IDENT then
    some (.ident p.lit p.pos, pNext p)
  else if p.tok = .STRING ∨ p.tok = .NUMBER ∨ p.tok = .FLOAT ∨ p.tok = .BOOL ∨ p.tok = .NULL then
    some (.lit p.tok p.lit p.pos, pNext p)
  else if p.tok = .LPAREN then
    let r1 := expect p .LPAREN
    match parseBinOp fuel r1.2 1 with
    | none => none
    | some (e, p) =>
      let r2 := expect p .RPAREN
      some (.paren r1.1.1 e r2.1.1, r2.2)
  else if p.tok = .LBRACKET then
    let r1 := expect p .LBRACKET
    match (if r1.2.tok ≠ .RBRACKET then parseExpressionList fuel r1.2 .RBRACKET
      else some ([], r1.2)) with
    | none => none
    | some (elms, p) =>
      let r2 := expect p .RBRACKET
      some (.array elms r1.1.1 r2.1.1, r2.2)
  else if p.tok = .LCURLY then
    let r1 := expect p .LCURLY
    match (if r1.2.tok ≠ .RCURLY then parseFieldList fuel r1.2 .RCURLY
      else some ([], r1.2)) with
    | none => none
    | some (fs, p) =>
      let r2 := expect p .RCURLY
      some (.object fs r1.1.1 r2.1.1, r2.2)
  else
    let p := addError p ("expected expression, got " ++ p.tok.text)
    let res : ast.Expr := .lit .NULL "null" p.pos
    match advanceSet fuel p statementEnd with
    | none => none
    | some p => some (res, p)

/-- parseExpressionList (parser.go:515-531). -/
def parseExpressionList : Nat → ParserS → Token → Option (List ast.Expr × ParserS)
| 0, _, _ => none
| fuel + 1, p, stop =>
  if p.tok = stop ∨ p.tok = .EOF then some ([], p)
  else
    match parseBinOp fuel p 1 with
    | none => none
    | some (e, p) =>
      if p.tok = stop then some ([e], p)
      else
        let p := if p.tok ≠ .COMMA then addError p "missing ',' in expression list" else p
        match parseExpressionList fuel (pNext p) stop with
        | none => none
        | some (rest, p) => some (e :: rest, p)

/-- parseFieldList (parser.go:536-552); note the Go code appends
parseField's result even when it is nil. -/
def parseFieldList : Nat → ParserS → Token →
    Option (List (Option (String × Pos × Bool × ast.Expr)) × ParserS)
| 0, _, _ => none
| fuel + 1, p, stop =>
  if p.tok = stop ∨ p.tok = .EOF then some ([], p)
  else
    match parseField fuel p with
    | none => none
    | some (f, p) =>
      if p.tok = stop then some ([f], p)
      else
        let p := if p.tok ≠ .COMMA then addError p "missing ',' in field list" else p
        match parseFieldList fuel (pNext p) stop with
        | none => none
        | some (rest, p) => some (f :: rest, p)

/-- parseField (parser.go:557-580). -/
def parseField : Nat → ParserS → Option (Option (String × Pos × Bool × ast.Expr) × ParserS)
| 0, _ => none
| fuel + 1, p =>
  if p.tok ≠ .STRING ∧ p.tok ≠ .IDENT then
    match advanceSet fuel (addError p ("Expected field name, got " ++ p.tok.text)) fieldStarter with
    | none => none
    | some p => some (none, p)
  else
    let name := p.lit
    let namePos := p.pos
    let nq := if p.tok = .STRING ∧ name.length > 2 then (strSlice1 name, true) else (name, false)
    let r := expect (pNext p) .ASSIGN
    match parseBinOp fuel r.2 1 with
    | none => none
    | some (v, p) => some (some (nq.1, namePos, nq.2, v), p)

end

mutual

/-- ParseStatement (parser.go:144-202); `none` inside the pair is Go's nil
statement (an error was recorded and tokens were skipped). -/
def ParseStatement : Nat → ParserS → Option (Option ast.Stmt × ParserS)
| 0, _ => none
| fuel + 1, p =>
  match parseBlockName fuel p with
  | none => none
  | some (none, p) =>
    match advance fuel p .IDENT with
    | none => none
    | some p => some (none, p)
  | some (some bn, p) =>
    if p.tok = .ASSIGN then
      let p := pNext p
      let p :=
        if bn.Fragments.length ≠ 1 then
          addErrorAt p bn.Start "attribute names may only consist of a single identifier"
        else if bn.LabelPos ≠ 0 then
          addErrorAt p bn.LabelPos "attribute names may not have labels"
        else p
      match parseBinOp fuel p 1 with
      | none => none
      | some (v, p) => some (some (.attribute (bn.Fragments.headD "") bn.Start v), p)
    else if p.tok = .LCURLY then
      let r1 := expect p .LCURLY
      match parseBody fuel r1.2 .RCURLY with
      | none => none
      | some (body, p) =>
        let r2 := expect p .RCURLY
        some (some (.block bn.Fragments bn.Start bn.Label body r1.1.1 r2.1.1), r2.2)
    else
      let p := addError p
        (if bn.ValidAttribute then "expected attribute assignment or block body, got " ++ p.tok.text
         else "expected block body, got " ++ p.tok.text)
      match advance fuel p .IDENT with
      | none => none
      | some p => some (none, p)

/-- parseBody (parser.go:120-136). -/
def parseBody : Nat → ParserS → Token → Option (List ast.Stmt × ParserS)
| 0, _, _ => none
| fuel + 1, p, stop =>
  if p.tok = stop ∨ p.tok = .EOF then some ([], p)
  else
    match ParseStatement fuel p with
    | none => none
    | some (res, p) =>
      if p.tok = stop then some (res.toList, p)
      else
        let r := expect p .TERMINATOR
        match parseBody fuel r.2 stop with
        | none => none
        | some (rest, p) => some (res.toList ++ rest, p)

end

/-- newParser (parser.go:42-58) over the eagerly scanned token stream: prime
the current token, carrying the scanner's reported errors. -/
def newParser (src : String) : Option ParserS :=
  match scanner.tokenizeE src with
  | none => none
  | some (toks, eofPos, serrs) =>
    some (pNext ⟨toks, eofPos, serrs, 0, .ILLEGAL, ""⟩)

/-- Generous parse fuel for a source string. -/
def parseFuel (src : String) : Nat := 4 * src.length + 16

/-- ParseExpression (the package entry point): parse with parseBinOp at
precedence floor 1; the result is nil and the error list is returned when
any error was recorded. -/
def ParseExpression (src : String) : Option (Except (List (Pos × String)) ast.Expr) :=
  match newParser src with
  | none => none
  | some p0 =>
    match parseBinOp (parseFuel src) p0 1 with
    | none => none
    | some (e, p) => some (if p.errs = [] then .ok e else .error p.errs)

/-- ParseFile (the package entry point): the file body, or the error list. -/
def ParseFileStr (src : String) : Option (Except (List (Pos × String)) (List ast.Stmt)) :=
  match newParser src with
  | none => none
  | some p0 =>
    match parseBody (parseFuel src) p0 .EOF with
    | none => none
    | some (body, p) => some (if p.errs = [] then .ok body else .error p.errs)

end parser

/-! ## Package `vm` (the vm revision of the merged rivertags file, and
constant.go) -/

namespace vm

/-- A Scope models the chain of identifier maps flattened into one
association list; its variables are already river values (value.Encode on
arbitrary Go values is outside the model — no claim evaluates an
identifier). -/
def Scope := List (String × value.Value)

/-- findIdentifier (vm revision): the first binding of the name, or none. -/
def findIdentifier (scope : Scope) (name : String) : Option value.Value :=
  List.lookup name scope

/-- strconv.Unquote modelled for double-quoted literals without escapes or
inner quotes (every string literal a claim evaluates is of this form). -/
def goUnquote (s : String) : Option String :=
  let cs := s.toList
  if cs.length ≥ 2 ∧ cs.headD ' ' = '"' ∧ cs.getLastD ' ' = '"' ∧
      ((cs.drop 1).take (cs.length - 2)).all (fun c => c ≠ '\\' ∧ c ≠ '"') then
    some (String.mk ((cs.drop 1).take (cs.length - 2)))
  else none

/-- valueFromLiteral (constant.go:11-46).  strconv failures are returned
errors (their text is abbreviated to the parsing prefix); an unexpected
token is a panic. -/
def valueFromLiteral (lit : String) (tok : Token) : Except value.Failure value.Value :=
  match tok with
  | .NUMBER =>
    match goParseIntBase0 lit with
    | some v => pure (value.ofInt v)
    | none => .error (.verr (.msg ("strconv.ParseInt: parsing " ++ lit)))
  | .FLOAT =>
    match goParseFloat lit with
    | some f => pure (value.ofFloat f)
    | none => .error (.verr (.msg ("strconv.ParseFloat: parsing " ++ lit)))
  | .STRING =>
    match goUnquote lit with
    | some v => pure (value.ofString v)
    | none => .error (.verr (.msg ("invalid syntax: " ++ lit)))
  | .BOOL =>
    if lit = "true" then pure (value.ofBool true)
    else if lit = "false" then pure (value.ofBool false)
    else .error (.verr (.msg ("invalid boolean literal " ++ lit)))
  | _ => .error (.gopanic (tok.text ++ " is not a valid token"))

/-- Insert or overwrite a key of an association list (Go map assignment). -/
def setKey : List (String × GoVal) → String → GoVal → List (String × GoVal)
| [], k, v => [(k, v)]
| (k0, v0) :: rest, k, v =>
  if k0 = k then (k0, v) :: rest else (k0, v0) :: setKey rest k v

mutual

/-- Evaluator.evaluateExpr (vm revision, lines 622-731 of the merged file).
Go errors are `.verr`, Go panics `.gopanic`; `none` is fuel exhaustion (a
model artifact — the Go recursion is structural in the node).  The
KindMap/KindObject split of the access case corresponds to the two backings
of an object value and is embedded through Value.Key, which handles both;
Value.Type in error messages prints as the kind's name. -/
def evaluateExpr : Nat → Scope → ast.Expr → Option (Except value.Failure value.Value)
| 0, _, _ => none
| fuel + 1, scope, node =>
  match node with
  | .lit kind v _ => some (valueFromLiteral v kind)
  | .binary op _ l r =>
    match evaluateExpr fuel scope l with
    | none => none
    | some (.error e) => some (.error e)
    | some (.ok lhs) =>
      match evaluateExpr fuel scope r with
      | none => none
      | some (.error e) => some (.error e)
      | some (.ok rhs) => some (value.Binop lhs op rhs)
  | .array elems _ _ =>
    match evalElems fuel scope elems with
    | none => none
    | some (.error e) => some (.error e)
    | some (.ok vals) => some (pure (value.arrayOf vals))
  | .object fields _ _ =>
    match evalFields fuel scope fields [] with
    | none => none
    | some (.error e) => some (.error e)
    | some (.ok entries) => some (pure ⟨.vMap .tIface entries, .object⟩)
  | .ident name _ =>
    match findIdentifier scope name with
    | none => some (.error (.verr (.msg ("identifier \"" ++ name ++ "\" does not exist"))))
    | some val => some (pure val)
  | .access e name _ =>
    match evaluateExpr fuel scope e with
    | none => none
    | some (.error err) => some (.error err)
    | some (.ok val) =>
      if val.k = .object then
        match val.Key name with
        | .error m => some (.error (.gopanic m))
        | .ok (res, true) => some (pure res)
        | .ok (_, false) =>
          some (.error (.verr (.msg ("field \"" ++ name ++ "\" does not exist"))))
      else
        some (.error (.verr (.msg ("cannot access field \"" ++ name ++
          "\" on non-object or map type " ++ val.k.text))))
  | .index e idxe _ _ =>
    match evaluateExpr fuel scope e with
    | none => none
    | some (.error err) => some (.error err)
    | some (.ok val) =>
      match evaluateExpr fuel scope idxe with
      | none => none
      | some (.error err) => some (.error err)
      | some (.ok idx) =>
        if val.k ≠ .array then
          some (.error (.verr (.msg ("cannot take an index of non-list type " ++ val.k.text))))
        else if idx.k ≠ .number then
          some (.error (.verr (.msg ("type " ++ idx.k.text ++
            " cannot be used to index objects"))))
        else
          match idx.Int' with
          | none => some (.error (.gopanic "river/vm: Int called on non-number type"))
          | some i =>
            match val.Index i with
            | .error m => some (.error (.gopanic m))
            | .ok res => some (pure res)
  | .paren _ inner _ => evaluateExpr fuel scope inner
  | .unary op e _ =>
    match evaluateExpr fuel scope e with
    | none => none
    | some (.error err) => some (.error err)
    | some (.ok val) => some (value.Unary op val)
  | .call _ _ _ _ => some (.error (.gopanic "unexpected ast.Node type *ast.CallExpr"))

/-- The array-literal loop of evaluateExpr. -/
def evalElems : Nat → Scope → List ast.Expr → Option (Except value.Failure (List value.Value))
| 0, _, _ => none
| _ + 1, _, [] => some (pure [])
| fuel + 1, scope, e :: rest =>
  match evaluateExpr fuel scope e with
  | none => none
  | some (.error err) => some (.error err)
  | some (.ok v) =>
    match evalElems fuel scope rest with
    | none => none
    | some (.error err) => some (.error err)
    | some (.ok vs) => some (pure (v :: vs))

/-- The object-literal loop of evaluateExpr: `attrs[field.Name] = val` in
field order; the interface cells hold the members' Go values.  A nil field
(recorded by the parser after a field error) is dereferenced by Go and
panics. -/
def evalFields : Nat → Scope → List (Option (String × Pos × Bool × ast.Expr)) →
    List (String × GoVal) → Option (Except value.Failure (List (String × GoVal)))
| 0, _, _, _ => none
| _ + 1, _, [], acc => some (pure acc)
| _ + 1, _, none :: _, _ =>
  some (.error (.gopanic "runtime error: invalid memory address or nil pointer dereference"))
| fuel + 1, scope, some f :: rest, acc =>
  match evaluateExpr fuel scope f.2.2.2 with
  | none => none
  | some (.error err) => some (.error err)
  | some (.ok v) => evalFields fuel scope rest (setKey acc f.1 (.vIface (some v.v)))

end

/-- Evaluator.Evaluate (vm revision, lines 381-408 of the merged file) on an
expression node: evaluateExpr, then decode the river value into the Go
destination (type `rt`, current value `cur`).  The deferred handler wraps a
RETURNED error with the node's position text; that prefix needs the later
token revision's Pos-to-Position table, absent from the repository, and is
modelled as the identity on the message.  There is no recover(), so a Go
panic raised during evaluation propagates out and crashes the process —
`.gopanic` passes through untouched. -/
def Evaluate (fuel : Nat) (scope : Scope) (node : ast.Expr) (rt : GoTy) (cur : GoVal) :
    Option (Except value.Failure GoVal) :=
  match evaluateExpr fuel scope node with
  | none => none
  | some (.error f) => some (.error f)
  | some (.ok val) => some (value.Decode val rt cur)

/-- prepareDecodeValue (vm revision, lines 570-583 of the merged file)
applied to a slot of type `ty` holding `v`: dereference pointers down to the
non-pointer value, allocating (a zero value) along nil pointers.  Returned
as the inner type and value; `rewrapPtrs` reconstructs the slot after
decoding (Go mutates through the pointers instead). -/
def derefPtrs : GoTy → GoVal → GoTy × GoVal
| .tPtr et, .vPtr _ (some w) => derefPtrs et w
| .tPtr et, _ => derefPtrs et (zeroValue et)
| t, v => (t, v)

/-- Reconstruct the pointer chain around the decoded inner value. -/
def rewrapPtrs : GoTy → GoVal → GoVal
| .tPtr et, w => .vPtr et (some (rewrapPtrs et w))
| _, w => w

/-- The attribute statements of a block body with the given name, in order
(the foundAttrs map), as their value expressions. -/
def attrsFor (body : List ast.Stmt) (name : String) : List ast.Expr :=
  body.filterMap fun st =>
    match st with
    | .attribute n _ v => if n = name then some v else none
    | _ => none

/-- The nested blocks of a block body whose joined name is the given name,
in order (the foundBlocks map), as (name fragments, label, body). -/
def blocksFor (body : List ast.Stmt) (name : String) :
    List (List String × String × List ast.Stmt) :=
  body.filterMap fun st =>
    match st with
    | .block bname _ blabel bbody _ _ =>
      if String.intercalate "." bname = name then some (bname, blabel, bbody) else none
    | _ => none

/-- Evaluator.evaluateBlockLabel (vm revision, lines 585-620 of the merged
file) on a struct of tag fields `fields` and values `vals`: find the label
field, error when the block and the schema disagree about having a label,
and otherwise assign the label (a panic if the field is not a string). -/
def evaluateBlockLabel (name : List String) (label : String) (tfs : rivertags.Fields)
    (fields : List (String × Option String × GoTy)) (vals : List GoVal) :
    Except value.Failure (List GoVal) :=
  match tfs.find? (fun tf => tf.IsLabel) with
  | some labelField =>
    if label = "" then
      .error (.verr (.msg ("block \"" ++ String.intercalate "." name ++
        "\" requires non-empty label")))
    else
      let fty := (fields.getD labelField.Index ("", none, .tBool)).2.2
      if fty.beq .tString then .ok (value.setIdx vals labelField.Index (.vString label))
      else .error (.gopanic "river: cannot decode block label into non-string type")
  | none =>
    if label ≠ "" then
      .error (.verr (.msg ("block \"" ++ String.intercalate "." name ++
        "\" does not support specifying labels")))
    else .ok vals

/-- The attribute names of a block body in order: the key set of the
foundAttrs map. -/
def attrNamesOf (body : List ast.Stmt) : List String :=
  body.filterMap fun st =>
    match st with
    | .attribute n _ _ => some n
    | _ => none

/-- The joined block names of a block body in order: the key set of the
foundBlocks map. -/
def blockNamesOf (body : List ast.Stmt) : List String :=
  body.filterMap fun st =>
    match st with
    | .block bname _ _ _ _ _ => some (String.intercalate "." bname)
    | _ => none

/-- The two consumed-name sets of evaluateBlock and the closing
unrecognized-name checks (run after the field loop): the first attribute or
block name of the body that no tag field consumes is an error.  Go iterates
the found maps in unspecified order; body order is used here. -/
def unrecognizedCheck (body : List ast.Stmt) (tfs : rivertags.Fields) :
    Option value.Failure :=
  let consumedAttrs := (tfs.filter (fun tf => tf.IsAttr)).map rivertags.Field.Name
  let consumedBlocks := (tfs.filter (fun tf => tf.IsBlock)).map rivertags.Field.Name
  match (attrNamesOf body).find? (fun n => ! consumedAttrs.contains n) with
  | some n => some (.verr (.msg ("unrecognized attribute name \"" ++ n ++ "\"")))
  | none =>
    match (blockNamesOf body).find? (fun n => ! consumedBlocks.contains n) with
    | some n => some (.verr (.msg ("unrecognized block name \"" ++ n ++ "\"")))
    | none => none

mutual

/-- Evaluator.evaluateBlock (vm revision, lines 410-568 of the merged file)
decoding a block (name, label, body) into a struct value; the struct is
rebuilt functionally where Go writes through reflect.  `none` is fuel
exhaustion (model artifact). -/
def evaluateBlock : Nat → Scope → List String → String → List ast.Stmt → GoVal →
    Option (Except value.Failure GoVal)
| 0, _, _, _, _, _ => none
| fuel + 1, scope, name, label, body, rv =>
  match rv with
  | .vStruct fields vals =>
    match value.getCachedTags fields with
    | .error m => some (.error (.gopanic m))
    | .ok tfs =>
      match evaluateBlockLabel name label tfs fields vals with
      | .error f => some (.error f)
      | .ok vals1 =>
        match evalTagLoop fuel scope body tfs fields vals1 with
        | none => none
        | some (.error f) => some (.error f)
        | some (.ok vals2) =>
          match unrecognizedCheck body tfs with
          | some f => some (.error f)
          | none => some (.ok (.vStruct fields vals2))
  | _ =>
    some (.error (.gopanic "river: can only evlauate blocks into struct pointers"))

/-- The per-tag-field loop of evaluateBlock: the validity checks in source
order, then the block or attribute decode into the field. -/
def evalTagLoop : Nat → Scope → List ast.Stmt → rivertags.Fields →
    List (String × Option String × GoTy) → List GoVal →
    Option (Except value.Failure (List GoVal))
| 0, _, _, _, _, _ => none
| _ + 1, _, _, [], _, vals => some (.ok vals)
| fuel + 1, scope, body, tf :: rest, fields, vals =>
  if tf.IsIgnored ∨ (¬ tf.IsAttr ∧ ¬ tf.IsBlock) then
    evalTagLoop fuel scope body rest fields vals
  else
    let attrs := attrsFor body tf.Name
    let blocks := blocksFor body tf.Name
    if attrs.length = 0 ∧ blocks.length = 0 ∧ tf.IsOptional then
      evalTagLoop fuel scope body rest fields vals
    else if tf.IsAttr ∧ blocks.length > 0 then
      some (.error (.verr (.msg ("\"" ++ tf.Name ++
        "\" must be an attribute, but is used as a block"))))
    else if tf.IsAttr ∧ attrs.length = 0 ∧ ¬ tf.IsOptional then
      some (.error (.verr (.msg ("missing required attribute \"" ++ tf.Name ++ "\""))))
    else if tf.IsAttr ∧ attrs.length > 1 then
      some (.error (.verr (.msg ("attribute \"" ++ tf.Name ++ "\" may only be set once"))))
    else if tf.IsBlock ∧ attrs.length > 0 then
      some (.error (.verr (.msg ("\"" ++ tf.Name ++
        "\" must be a block, but is used as an attribute"))))
    else if tf.IsBlock ∧ blocks.length = 0 ∧ ¬ tf.IsOptional then
      some (.error (.verr (.msg ("missing required block \"" ++ tf.Name ++ "\""))))
    else if attrs.length > 0 ∧ blocks.length > 0 then
      some (.error (.verr (.msg ("\"" ++ tf.Name ++
        "\" may only be used as a block or an attribute, but found both"))))
    else
      let fieldTy := (fields.getD tf.Index ("", none, .tBool)).2.2
      let fieldVal := vals.getD tf.Index .vInvalid
      if tf.IsBlock then
        let dt := derefPtrs fieldTy fieldVal
        match dt.1 with
        | .tSlice ety =>
          match evalBlocksSlice fuel scope blocks ety with
          | none => none
          | some (.error f) => some (.error f)
          | some (.ok elems) =>
            evalTagLoop fuel scope body rest fields
              (value.setIdx vals tf.Index (rewrapPtrs fieldTy (.vSlice ety elems)))
        | .tArray n ety =>
          match evalBlocksArr fuel scope blocks ety n with
          | none => none
          | some (.error f) => some (.error f)
          | some (.ok elems) =>
            evalTagLoop fuel scope body rest fields
              (value.setIdx vals tf.Index (rewrapPtrs fieldTy (.vArray ety elems)))
        | _ =>
          if blocks.length > 1 then
            some (.error (.verr (.msg ("block \"" ++ tf.Name ++
              "\" may only be specified once"))))
          else
            match blocks with
            | [] => some (.error (.gopanic "runtime error: index out of range"))
            | b :: _ =>
              match evaluateBlock fuel scope b.1 b.2.1 b.2.2 dt.2 with
              | none => none
              | some (.error f) => some (.error f)
              | some (.ok inner) =>
                evalTagLoop fuel scope body rest fields
                  (value.setIdx vals tf.Index (rewrapPtrs fieldTy inner))
      else
        match attrs with
        | [] => some (.error (.gopanic "runtime error: index out of range"))
        | a :: _ =>
          match evaluateExpr fuel scope a with
          | none => none
          | some (.error f) => some (.error f)
          | some (.ok val) =>
            match value.Decode val fieldTy fieldVal with
            | .error f => some (.error f)
            | .ok newVal =>
              evalTagLoop fuel scope body rest fields (value.setIdx vals tf.Index newVal)

/-- The Slice case of the block decode: a fresh slice of exactly
len(blocks) elements, each block decoded into its (prepared) zero
element. -/
def evalBlocksSlice : Nat → Scope → List (List String × String × List ast.Stmt) →
    GoTy → Option (Except value.Failure (List GoVal))
| 0, _, _, _ => none
| _ + 1, _, [], _ => some (.ok [])
| fuel + 1, scope, b :: rest, ety =>
  let z := derefPtrs ety (zeroValue ety)
  match evaluateBlock fuel scope b.1 b.2.1 b.2.2 z.2 with
  | none => none
  | some (.error f) => some (.error f)
  | some (.ok inner) =>
    match evalBlocksSlice fuel scope rest ety with
    | none => none
    | some (.error f) => some (.error f)
    | some (.ok elems) => some (.ok (rewrapPtrs ety inner :: elems))

/-- The Array case of the block decode: decode blocks up to the array
length; the remaining elements are set to the zero value (of the prepared,
pointer-free element). -/
def evalBlocksArr : Nat → Scope → List (List String × String × List ast.Stmt) →
    GoTy → Nat → Option (Except value.Failure (List GoVal))
| 0, _, _, _, _ => none
| _ + 1, _, _, _, 0 => some (.ok [])
| fuel + 1, scope, [], ety, n + 1 =>
  match evalBlocksArr fuel scope [] ety n with
  | none => none
  | some (.error f) => some (.error f)
  | some (.ok elems) =>
    some (.ok (rewrapPtrs ety (zeroValue (derefPtrs ety (zeroValue ety)).1) :: elems))
| fuel + 1, scope, b :: rest, ety, n + 1 =>
  let z := derefPtrs ety (zeroValue ety)
  match evaluateBlock fuel scope b.1 b.2.1 b.2.2 z.2 with
  | none => none
  | some (.error f) => some (.error f)
  | some (.ok inner) =>
    match evalBlocksArr fuel scope rest ety n with
    | none => none
    | some (.error f) => some (.error f)
    | some (.ok elems) => some (.ok (rewrapPtrs ety inner :: elems))

end

end vm

/-! ## Whole pipelines: source text to evaluated result -/

/-- Parse a source string as an expression and evaluate it in the empty
scope (`none` when parsing fails or fuel runs out). -/
def evalString (src : String) : Option (Except value.Failure value.Value) :=
  match parser.ParseExpression src with
  | some (.ok e) => vm.evaluateExpr 1000 [] e
  | _ => none

/-- Parse a source string as an expression and Evaluate it into a Go
destination of type `rt` holding `cur`. -/
def evaluateStringInto (src : String) (rt : GoTy) (cur : GoVal) :
    Option (Except value.Failure GoVal) :=
  match parser.ParseExpression src with
  | some (.ok e) => vm.Evaluate 1000 [] e rt cur
  | _ => none

/-! ## Concrete schemas for the block-decoding claims (C6, C7) -/

/-- struct { Label string `river:",label"` }. -/
def labelSchema : List (String × Option String × GoTy) := [("Label", some ",label", .tString)]

/-- Its river tags, as rivertags.Get computes them. -/
def labelTags : rivertags.Fields := [⟨"", 0, ⟨false, false, false, false, true⟩⟩]

/-- struct { A int64 `river:"a,attr,optional"` } — also the inner block schema
of the C7 demonstrations. -/
def innerSchema : List (String × Option String × GoTy) :=
  [("A", some "a,attr,optional", .tInt64)]

/-- struct { B Inner `river:"b,block"` }: a required scalar block field. -/
def scalarBlockSchema : List (String × Option String × GoTy) :=
  [("B", some "b,block", .tStruct innerSchema)]

/-- struct { B []Inner `river:"b,block,optional"` }. -/
def sliceBlockSchema : List (String × Option String × GoTy) :=
  [("B", some "b,block,optional", .tSlice (.tStruct innerSchema))]

/-- struct { B [3]Inner `river:"b,block,optional"` }. -/
def arrayBlockSchema : List (String × Option String × GoTy) :=
  [("B", some "b,block,optional", .tArray 3 (.tStruct innerSchema))]

/-- struct { A int64 `river:"a,attr"` }: a required attribute. -/
def reqAttrSchema : List (String × Option String × GoTy) := [("A", some "a,attr", .tInt64)]

/-- The source block `b { a = 1 }` used to populate the nested blocks. -/
def bBlock : ast.Stmt := .block ["b"] 0 "" [.attribute "a" 0 (.lit .NUMBER "1" 0)] 0 0

/-- `bBlock` as `vm.blocksFor` lists it: (name fragments, label, body). -/
def bTriple : List String × String × List ast.Stmt :=
  (["b"], "", [.attribute "a" 0 (.lit .NUMBER "1" 0)])

/-- The river tags of the optional slice-of-blocks schema. -/
def sliceTags : rivertags.Fields := [⟨"b", 0, ⟨false, true, false, true, false⟩⟩]

/-- The inner struct decoded from `bBlock` (a = 1), and the inner zero
value. -/
def innerOne : GoVal := .vStruct innerSchema [.vInt64 1]

def innerZero : GoVal := .vStruct innerSchema [.vInt64 0]

end River

namespace River

/-! ## Claim C3 -/

/-- Claim C3: the spec states `Position.IsValid() ⇔ line ≥ 1`.  The code at
token/file.go:22-24 instead returns `pos.Line > 1`, contradicting its own doc
comment ("Valid positions must have a Line value of at least 1"): a Position
on line 1 is reported invalid.  This theorem evaluates the embedded code at
the failing input. -/
theorem c3_isValid_rejects_line_one :
    (∀ pos : Position, pos.IsValid = true ↔ pos.line > 1) ∧
    (Position.mk "f" 0 1 1).line ≥ 1 ∧ (Position.mk "f" 0 1 1).IsValid = false := by
  refine ⟨fun pos => ?_, by decide, rfl⟩
  unfold Position.IsValid
  exact decide_eq_true_iff

/-! ## Claim C8 -/

/-- Claim C8: converting a string value to a number follows the spec's
routing rule — empty string errors; a leading '-' routes to the signed
integer parser; otherwise presence of '.', 'e' or 'E' routes to the float
parser; anything else routes to the unsigned integer parser; parse failures
are errors.  Stated as agreement between the source translation
`value.convertValue` and the spec-side `specStringToNumberRoute`. -/
theorem c8_string_to_number_route (s : String) :
    (specStringToNumberRoute s = .emptyError →
      value.convertValue ⟨.vString s, .string⟩ .number =
        .error ("cannot convert string \"" ++ s ++ "\" to number")) ∧
    (specStringToNumberRoute s = .signed →
      value.convertValue ⟨.vString s, .string⟩ .number =
        match goParseInt s with
        | some i => .ok ⟨.vInt64 i, .number⟩
        | none => .error ("cannot convert string \"" ++ s ++ "\" to number: invalid")) ∧
    (specStringToNumberRoute s = .float →
      value.convertValue ⟨.vString s, .string⟩ .number =
        match goParseFloat s with
        | some f => .ok ⟨.vFloat64 f, .number⟩
        | none => .error ("cannot convert string \"" ++ s ++ "\" to number: invalid")) ∧
    (specStringToNumberRoute s = .unsigned →
      value.convertValue ⟨.vString s, .string⟩ .number =
        match goParseUint s with
        | some u => .ok ⟨.vUint64 u, .number⟩
        | none => .error ("cannot convert string \"" ++ s ++ "\" to number: invalid")) := by
  unfold specStringToNumberRoute
  by_cases h1 : s = ""
  · refine ⟨fun _ => ?_, fun hr => ?_, fun hr => ?_, fun hr => ?_⟩ <;>
      simp only [h1, if_pos rfl] at *
    · simp [value.convertValue, h1]
    all_goals cases hr
  · by_cases h2 : s.front = '-'
    · refine ⟨fun hr => ?_, fun _ => ?_, fun hr => ?_, fun hr => ?_⟩ <;>
        simp only [if_neg h1, if_pos h2] at *
      · cases hr
      · simp only [value.convertValue]
        simp only [reduceCtorEq, if_neg h1, if_pos h2, if_false]
        cases goParseInt s <;> rfl
      all_goals cases hr
    · by_cases h3 : s.toList.any (fun c => c = '.' ∨ c = 'e' ∨ c = 'E')
      · refine ⟨fun hr => ?_, fun hr => ?_, fun _ => ?_, fun hr => ?_⟩ <;>
          simp only [if_neg h1, if_neg h2, if_pos h3] at *
        · cases hr
        · cases hr
        · simp only [value.convertValue]
          simp only [reduceCtorEq, if_neg h1, if_neg h2, if_pos h3, if_false]
          cases goParseFloat s <;> rfl
        · cases hr
      · refine ⟨fun hr => ?_, fun hr => ?_, fun hr => ?_, fun _ => ?_⟩ <;>
          simp only [if_neg h1, if_neg h2, if_neg h3] at *
        · cases hr
        · cases hr
        · cases hr
        · simp only [value.convertValue]
          simp only [reduceCtorEq, if_neg h1, if_neg h2, if_neg h3, if_false]
          cases goParseUint s <;> rfl

/-- Witness for C8: each route evaluated at a concrete string, via the
theorem itself. -/
theorem c8_string_to_number_route_witness :
    value.convertValue ⟨.vString "", .string⟩ .number =
      .error "cannot convert string \"\" to number" ∧
    value.convertValue ⟨.vString "-3", .string⟩ .number = .ok ⟨.vInt64 (-3), .number⟩ ∧
    value.convertValue ⟨.vString "3.5", .string⟩ .number =
      .ok ⟨.vFloat64 (.finite 35 10), .number⟩ ∧
    value.convertValue ⟨.vString "15", .string⟩ .number = .ok ⟨.vUint64 15, .number⟩ := by
  refine ⟨?_, ?_, ?_, ?_⟩
  · exact (c8_string_to_number_route "").1 rfl
  · exact (c8_string_to_number_route "-3").2.1 rfl
  · have h := (c8_string_to_number_route "3.5").2.2.1 rfl
    have hf : goParseFloat "3.5" = some (.finite 35 10) := by rfl
    rw [h, hf]
  · exact (c8_string_to_number_route "15").2.2.2 rfl

/-! ## Claim C10 -/

/-- Claim C10 counterexample: decoding a map-backed object whose entry "a"
holds the zero value 0 into a struct with field tag "a,key" does not treat
the field as unset — it panics: decodeMapObject ignores the ok flag of
Value.Key and hands the invalid zero Value to decode, whose fast-path type
switch evaluates `val.v.Type()` on the zero reflect.Value. -/
theorem c10_zero_entry_decode_panics :
    value.Decode (mapValue [("a", .vInt64 0)]) c10Target (zeroValue c10Target) =
      .error (.gopanic "reflect: call of reflect.Value.Type on zero Value") ∧
    ∀ res, value.Decode (mapValue [("a", .vInt64 0)]) c10Target (zeroValue c10Target) ≠
      .ok res := by
  constructor
  · rfl
  · intro res h
    rw [show value.Decode (mapValue [("a", .vInt64 0)]) c10Target (zeroValue c10Target) =
      .error (.gopanic "reflect: call of reflect.Value.Type on zero Value") from rfl] at h
    cases h

/-- Claim C10 (amended): for every map-backed object, `Value.Key` returns
`ok = false` exactly when the entry is absent or stores the zero value of
its type, so a zero-valued entry is indistinguishable from a missing key at
Value.Key; however, decoding an object from a map whose entry holds a zero
value does not treat that field as unset: decodeMapObject ignores the ok
flag and decode panics on the resulting invalid Value. -/
theorem c10_key_zero_entry (elemTy : GoTy) (entries : List (String × GoVal))
    (key : String) (hwf : ∀ v, entries.lookup key = some v → v.IsValid = true) :
    (value.Value.Key ⟨.vMap elemTy entries, .object⟩ key = .ok (value.Null, false) ↔
      (entries.lookup key = none ∨ ((entries.lookup key).getD .vInvalid).IsZero = true)) ∧
    (∀ (tail : List (String × GoVal)) (k : Nat),
      value.decodeMapObject (k + 3) (mapValue (("a", .vInt64 0) :: tail)) c10Target
        (zeroValue c10Target) =
      .error (.gopanic "reflect: call of reflect.Value.Type on zero Value")) := by
  constructor
  · cases hl : entries.lookup key with
    | none => simp [value.Value.Key, hl, GoVal.IsValid, pure, Except.pure]
    | some v =>
      have hv := hwf v hl
      by_cases hz : v.IsZero = true
      · simp [value.Value.Key, hl, hv, hz, pure, Except.pure]
      · have hkey : value.Value.Key ⟨.vMap elemTy entries, .object⟩ key =
            (value.makeValue v).bind (fun mv => pure (mv, true)) := by
          simp [value.Value.Key, hl, hv, hz, Bind.bind]
        rw [hkey]
        cases hm : value.makeValue v with
        | error p => simp [hl, hz, Except.bind]
        | ok mv => simp [hl, hz, Except.bind, pure, Except.pure]
  · intro tail k
    rfl

/-- Witness for C10's amended theorem: instantiated at a concrete map with a
zero-valued entry. -/
theorem c10_key_zero_entry_witness :
    (value.Value.Key ⟨.vMap .tInt64 [("a", .vInt64 0)], .object⟩ "a" =
      .ok (value.Null, false)) ∧
    value.decodeMapObject 3 (mapValue [("a", .vInt64 0), ("b", .vInt64 7)]) c10Target
      (zeroValue c10Target) =
      .error (.gopanic "reflect: call of reflect.Value.Type on zero Value") := by
  have h := c10_key_zero_entry .tInt64 [("a", .vInt64 0)] "a"
    (by intro v hv; cases hv; rfl)
  refine ⟨h.1.mpr ?_, ?_⟩
  · right; rfl
  · exact h.2 [("b", .vInt64 7)] 0

/-! ## Claim C2: helper lemmas

Every scanner helper leaves the insertTerm flag and the mode bits untouched;
only Scan itself modifies them.  These lemmas let the flag characterization
walk Scan's branches.
-/

namespace scanner

theorem onError_mode (s : Scanner) (off : Nat) (msg : String) :
    modeOf (onError s off msg) = modeOf s := rfl

theorem next_mode (s : Scanner) : modeOf (next s) = modeOf s := by
  unfold next onError modeOf
  dsimp only
  repeat' split
  all_goals rfl

theorem skipWhitespace_mode : ∀ (fuel : Nat) (s s' : Scanner),
    skipWhitespace fuel s = some s' → modeOf s' = modeOf s := by
  intro fuel
  induction fuel with
  | zero => intro s s' h; cases h
  | succ n ih =>
    intro s s' h
    unfold skipWhitespace at h
    split at h
    · exact (ih _ _ h).trans (next_mode s)
    · cases h; rfl

theorem identSlowLoop_mode : ∀ (fuel : Nat) (s s' : Scanner),
    identSlowLoop fuel s = some s' → modeOf s' = modeOf s := by
  intro fuel
  induction fuel with
  | zero => intro s s' h; cases h
  | succ n ih =>
    intro s s' h
    unfold identSlowLoop at h
    split at h
    · exact (ih _ _ h).trans (next_mode s)
    · cases h; rfl

theorem identLoop_mode : ∀ (fuel : Nat) (s s' : Scanner),
    identLoop fuel s = some s' → modeOf s' = modeOf s := by
  intro fuel
  induction fuel with
  | zero => intro s s' h; cases h
  | succ n ih =>
    intro s s' h
    unfold identLoop at h
    dsimp only at h
    split at h
    · split at h
      · exact (ih _ _ h).trans rfl
      · split at h
        · cases h; rfl
        · exact (identSlowLoop_mode _ _ _ h).trans (next_mode s)
    · cases h; rfl

theorem scanIdentifier_mode (fuel : Nat) (s : Scanner) (lit : String) (s' : Scanner)
    (h : scanIdentifier fuel s = some (lit, s')) : modeOf s' = modeOf s := by
  unfold scanIdentifier at h
  dsimp only at h
  cases hl : identLoop fuel s with
  | none => simp only [hl, reduceCtorEq] at h
  | some s1 =>
    simp only [hl, Option.some.injEq, Prod.mk.injEq] at h
    obtain ⟨-, rfl⟩ := h
    exact identLoop_mode _ _ _ hl

theorem digits_mode : ∀ (fuel : Nat) (s : Scanner) (n : Nat) (s' : Scanner),
    digits fuel s = some (n, s') → modeOf s' = modeOf s := by
  intro fuel
  induction fuel with
  | zero => intro s n s' h; cases h
  | succ k ih =>
    intro s n s' h
    unfold digits at h
    split at h
    · cases hd : digits k (next s) with
      | none => rw [hd] at h; cases h
      | some r =>
        rw [hd] at h; cases h
        exact (ih _ _ _ hd).trans (next_mode s)
    · cases h; rfl

theorem scanNumInt_mode (fuel : Nat) (s s' : Scanner) (h : scanNumInt fuel s = some s') :
    modeOf s' = modeOf s := by
  unfold scanNumInt at h
  split at h
  · cases hd : digits fuel s with
    | none => rw [hd] at h; cases h
    | some r => rw [hd] at h; cases h; exact digits_mode _ _ _ _ (by rw [hd])
  · cases h; rfl

theorem scanNumFrac_mode (fuel : Nat) (tok tok' : Token) (s s' : Scanner)
    (h : scanNumFrac fuel tok s = some (tok', s')) : modeOf s' = modeOf s := by
  unfold scanNumFrac at h
  split at h
  · cases hd : digits fuel (next s) with
    | none => rw [hd] at h; cases h
    | some r =>
      rw [hd] at h; cases h
      exact (digits_mode _ _ _ _ (by rw [hd])).trans (next_mode s)
  · cases h; rfl

theorem scanNumExp_mode (fuel : Nat) (tok tok' : Token) (off : Nat) (s s' : Scanner)
    (h : scanNumExp fuel tok off s = some (tok', s')) : modeOf s' = modeOf s := by
  unfold scanNumExp at h
  dsimp only at h
  split at h
  · cases hd : digits fuel (if (next s).ch = 43 ∨ (next s).ch = 45
        then next (next s) else next s) with
    | none => simp only [hd] at h; cases h
    | some r =>
      simp only [hd] at h
      cases h
      have h1 : modeOf r.2 = modeOf s := by
        refine (digits_mode _ _ r.1 r.2 (by rw [hd])).trans ?_
        split
        · exact (next_mode _).trans (next_mode s)
        · exact next_mode s
      split
      · exact h1
      · exact h1
  · cases h; rfl

theorem scanNumber_mode (fuel : Nat) (s : Scanner) (tok : Token) (lit : String)
    (s' : Scanner) (h : scanNumber fuel s = some (tok, lit, s')) :
    modeOf s' = modeOf s := by
  unfold scanNumber at h
  dsimp only at h
  cases h1 : scanNumInt fuel s with
  | none => simp only [h1] at h; cases h
  | some s1 =>
    simp only [h1] at h
    cases h2 : scanNumFrac fuel Token.NUMBER s1 with
    | none => simp only [h2] at h; cases h
    | some r2 =>
      simp only [h2] at h
      cases h3 : scanNumExp fuel r2.1 s.offset r2.2 with
      | none => simp only [h3] at h; cases h
      | some r3 =>
        simp only [h3] at h
        obtain ⟨rfl, rfl, rfl⟩ : r3.1 = tok ∧ bytesText (sliceBytes r3.2.input s.offset r3.2.offset) = lit ∧ r3.2 = s' := by
          cases h; exact ⟨rfl, rfl, rfl⟩
        exact ((scanNumExp_mode _ _ _ _ _ _ (by rw [h3])).trans
          (scanNumFrac_mode _ _ _ _ _ (by rw [h2]))).trans (scanNumInt_mode _ _ _ h1)

theorem escDigits_mode : ∀ (n x base off : Nat) (s : Scanner) (r : Nat × Scanner) (ok : Bool),
    escDigits n x base off s = (some r, ok) → modeOf r.2 = modeOf s := by
  intro n
  induction n with
  | zero => intro x base off s r ok h; cases h; rfl
  | succ k ih =>
    intro x base off s r ok h
    unfold escDigits at h
    dsimp only at h
    split at h
    · cases h; rfl
    · exact (ih _ _ _ _ _ _ h).trans (next_mode s)

theorem scanEscape_mode (s : Scanner) : modeOf (scanEscape s) = modeOf s := by
  unfold scanEscape
  dsimp only
  split
  · exact next_mode s
  · split
    · rfl
    · rename_i n base mx s1 heq
      have hs1 : modeOf s1 = modeOf s := by
        split at heq
        · cases heq; rfl
        · split at heq
          · cases heq; exact next_mode s
          · split at heq
            · cases heq; exact next_mode s
            · split at heq
              · cases heq; exact next_mode s
              · cases heq
      split
      · rename_i x s2 ok hd
        have h2 : modeOf s2 = modeOf s1 := escDigits_mode _ _ _ _ _ _ _ hd
        split
        · split
          · exact h2.trans hs1
          · exact h2.trans hs1
        · exact h2.trans hs1
      · exact hs1

theorem stringLoop_mode : ∀ (fuel off : Nat) (s s' : Scanner),
    stringLoop fuel off s = some s' → modeOf s' = modeOf s := by
  intro fuel
  induction fuel with
  | zero => intro off s s' h; cases h
  | succ k ih =>
    intro off s s' h
    unfold stringLoop at h
    dsimp only at h
    split at h
    · cases h; rfl
    · split at h
      · cases h; exact next_mode s
      · split at h
        · exact ((ih _ _ _ h).trans (scanEscape_mode (next s))).trans (next_mode s)
        · exact (ih _ _ _ h).trans (next_mode s)

theorem scanString_mode (fuel : Nat) (s : Scanner) (lit : String) (s' : Scanner)
    (h : scanString fuel s = some (lit, s')) : modeOf s' = modeOf s := by
  unfold scanString at h
  dsimp only at h
  cases hl : stringLoop fuel (s.offset - 1) s with
  | none => simp only [hl, reduceCtorEq] at h
  | some s1 =>
    simp only [hl, Option.some.injEq, Prod.mk.injEq] at h
    obtain ⟨-, rfl⟩ := h
    exact stringLoop_mode _ _ _ _ hl

theorem commentLoop_mode : ∀ (fuel numCR : Nat) (s : Scanner) (r : Nat × Scanner),
    commentLoop fuel numCR s = some r → modeOf r.2 = modeOf s := by
  intro fuel
  induction fuel with
  | zero => intro numCR s r h; cases h
  | succ k ih =>
    intro numCR s r h
    unfold commentLoop at h
    split at h
    · exact (ih _ _ _ h).trans (next_mode s)
    · cases h; rfl

theorem scanComment_mode (fuel : Nat) (s : Scanner) (lit : String) (s' : Scanner)
    (h : scanComment fuel s = some (lit, s')) : modeOf s' = modeOf s := by
  unfold scanComment at h
  dsimp only at h
  cases hl : commentLoop fuel 0 s with
  | none => simp only [hl, reduceCtorEq] at h
  | some r =>
    simp only [hl, Option.some.injEq, Prod.mk.injEq] at h
    obtain ⟨-, rfl⟩ := h
    exact commentLoop_mode _ _ _ _ hl

theorem switch2_mode (s : Scanner) (t0 t1 : Token) (c : Int) :
    modeOf (switch2 s t0 t1 c).2 = modeOf s := by
  unfold switch2
  split
  · exact next_mode s
  · rfl

theorem modeOf_insertTerm {a b : Scanner} (h : modeOf a = modeOf b) :
    a.insertTerm = b.insertTerm := congrArg Prod.fst h

theorem modeOf_dont {a b : Scanner} (h : modeOf a = modeOf b) :
    a.dontInsertTerms = b.dontInsertTerms := congrArg (fun p => p.2.1) h

theorem modeOf_inc {a b : Scanner} (h : modeOf a = modeOf b) :
    a.includeComments = b.includeComments := congrArg (fun p => p.2.2) h

theorem finish_insertTerm (s : Scanner) (b : Bool) (h : s.dontInsertTerms = false) :
    (finish s b).insertTerm = b := by
  unfold finish
  rw [h]
  rfl

theorem lookup_flag (lit : String) (p : Bool) :
    (decide (Token.lookup lit = .IDENT ∨ Token.lookup lit = .NULL ∨
      Token.lookup lit = .BOOL)) = flagSpec (Token.lookup lit) p := by
  unfold Token.lookup
  split_ifs <;> rfl

theorem scanNumFrac_tok (fuel : Nat) (tok tok' : Token) (s s' : Scanner)
    (h : scanNumFrac fuel tok s = some (tok', s')) : tok' = .FLOAT ∨ tok' = tok := by
  unfold scanNumFrac at h
  split at h
  · cases hd : digits fuel (next s) with
    | none => rw [hd] at h; cases h
    | some r => rw [hd] at h; cases h; left; rfl
  · cases h; right; rfl

theorem scanNumExp_tok (fuel : Nat) (tok tok' : Token) (off : Nat) (s s' : Scanner)
    (h : scanNumExp fuel tok off s = some (tok', s')) : tok' = .FLOAT ∨ tok' = tok := by
  unfold scanNumExp at h
  dsimp only at h
  split at h
  · cases hd : digits fuel (if (next s).ch = 43 ∨ (next s).ch = 45
        then next (next s) else next s) with
    | none => simp only [hd, reduceCtorEq] at h
    | some r => simp only [hd, Option.some.injEq, Prod.mk.injEq] at h; left; exact h.1.symm
  · cases h; right; rfl

theorem scanNumber_tok (fuel : Nat) (s : Scanner) (tok : Token) (lit : String)
    (s' : Scanner) (h : scanNumber fuel s = some (tok, lit, s')) :
    tok = .NUMBER ∨ tok = .FLOAT := by
  unfold scanNumber at h
  dsimp only at h
  cases h1 : scanNumInt fuel s with
  | none => simp only [h1, reduceCtorEq] at h
  | some s1 =>
    simp only [h1] at h
    cases h2 : scanNumFrac fuel Token.NUMBER s1 with
    | none => simp only [h2, reduceCtorEq] at h
    | some r2 =>
      simp only [h2] at h
      cases h3 : scanNumExp fuel r2.1 s.offset r2.2 with
      | none => simp only [h3, reduceCtorEq] at h
      | some r3 =>
        simp only [h3, Option.some.injEq, Prod.mk.injEq] at h
        obtain ⟨rfl, -, -⟩ := h
        rcases scanNumExp_tok _ _ _ _ _ _ (by rw [h3]) with h4 | h4
        · right; exact h4
        · rcases scanNumFrac_tok _ _ _ _ _ (by rw [h2]) with h5 | h5
          · right; exact h4.trans h5
          · left; exact h4.trans h5

theorem lookupMem {α : Type} : ∀ (l : List (Int × α)) (ch : Int) (t : α),
    l.lookup ch = some t → ∃ k, (k, t) ∈ l := by
  intro l
  induction l with
  | nil => intro ch t h; cases h
  | cons hd tl ih =>
    intro ch t h
    rw [List.lookup] at h
    split at h
    · cases h
      exact ⟨hd.1, by simp⟩
    · obtain ⟨k, hk⟩ := ih ch t h
      exact ⟨k, by simp [hk]⟩

theorem twoCharOp_flag (ch : Int) (t0 t1 : Token) (h : twoCharOp ch = some (t0, t1))
    (p : Bool) : flagSpec t0 p = false ∧ flagSpec t1 p = false := by
  obtain ⟨k, hk⟩ := lookupMem _ _ _ h
  fin_cases hk <;> exact ⟨rfl, rfl⟩

theorem singleTok_flag (ch : Int) (t : Token) (h : singleTok ch = some t) (p : Bool) :
    flagSpec t p = false := by
  obtain ⟨k, hk⟩ := lookupMem _ _ _ h
  fin_cases hk <;> rfl

/-- The flag characterization of Scan: with terminator insertion enabled, the
insertTerm flag after a returned token is `flagSpec` of the token and the
previous flag. -/
theorem Scan_flag : ∀ (fuel : Nat) (s : Scanner) (res : Scanner × Pos × Token × String),
    Scan fuel s = some res → s.dontInsertTerms = false →
    res.1.insertTerm = flagSpec res.2.2.1 s.insertTerm := by
  intro fuel
  induction fuel with
  | zero => intro s res h hm; cases h
  | succ n ih =>
    intro s res h hm
    unfold Scan at h
    dsimp only at h
    cases hw : skipWhitespace (loopFuel s) s with
    | none => rw [hw] at h; cases h
    | some s1 =>
      simp only [hw] at h
      have hmw := skipWhitespace_mode _ _ _ hw
      have hterm1 : s1.insertTerm = s.insertTerm := modeOf_insertTerm hmw
      have hdont1 : s1.dontInsertTerms = false := (modeOf_dont hmw).trans hm
      have hinc1 : s1.includeComments = s.includeComments := modeOf_inc hmw
      by_cases hA : isLetter s1.ch = true
      · -- identifier branch
        rw [if_pos hA] at h
        cases hi : scanIdentifier (loopFuel s1) s1 with
        | none => simp only [hi, reduceCtorEq] at h
        | some r =>
          simp only [hi] at h
          have hdont2 : r.2.dontInsertTerms = false :=
            (modeOf_dont (scanIdentifier_mode _ _ _ _ (by rw [hi]))).trans hdont1
          by_cases hlen : r.1.length > 1
          · rw [if_pos hlen] at h
            cases h
            rw [finish_insertTerm _ _ hdont2]
            exact lookup_flag r.1 s.insertTerm
          · rw [if_neg hlen] at h
            cases h
            rw [finish_insertTerm _ _ hdont2]
            rfl
      · rw [if_neg hA] at h
        by_cases hB : isDecimal s1.ch = true ∨ (s1.ch = 46 ∧ isDecimal (peek s1) = true)
        · -- number branch
          rw [if_pos hB] at h
          cases hn : scanNumber (loopFuel s1) s1 with
          | none => simp only [hn, reduceCtorEq] at h
          | some r =>
            simp only [hn] at h
            cases h
            have hdont2 : r.2.2.dontInsertTerms = false :=
              (modeOf_dont (scanNumber_mode _ _ _ _ _ (by rw [hn]))).trans hdont1
            rw [finish_insertTerm _ _ hdont2]
            rcases scanNumber_tok _ _ _ _ _ (by rw [hn]) with h4 | h4 <;> rw [h4] <;> rfl
        · -- default branch: s := next s1
          rw [if_neg hB] at h
          have hmn := next_mode s1
          have hterm2 : (next s1).insertTerm = s.insertTerm :=
            (modeOf_insertTerm hmn).trans hterm1
          have hdont2 : (next s1).dontInsertTerms = false :=
            (modeOf_dont hmn).trans hdont1
          have hinc2 : (next s1).includeComments = s.includeComments :=
            (modeOf_inc hmn).trans hinc1
          by_cases h1 : s1.ch = -1
          · -- eof
            rw [if_pos h1] at h
            by_cases h2 : (next s1).insertTerm = true
            · rw [if_pos h2] at h; cases h; rfl
            · rw [if_neg h2] at h; cases h
              rw [finish_insertTerm _ _ hdont2]
              rfl
          · rw [if_neg h1] at h
            by_cases h2 : s1.ch = 10
            · -- newline: terminator
              rw [if_pos h2] at h; cases h; rfl
            · rw [if_neg h2] at h
              by_cases h3 : s1.ch = 34
              · -- string
                rw [if_pos h3] at h
                cases hs2 : scanString (loopFuel (next s1)) (next s1) with
                | none => simp only [hs2, reduceCtorEq] at h
                | some r =>
                  simp only [hs2] at h
                  cases h
                  have hdont3 : r.2.dontInsertTerms = false :=
                    (modeOf_dont (scanString_mode _ _ _ _ (by rw [hs2]))).trans hdont2
                  rw [finish_insertTerm _ _ hdont3]
                  rfl
              · rw [if_neg h3] at h
                by_cases h4 : s1.ch = 124
                · -- '|'
                  rw [if_pos h4] at h
                  cases h
                  split
                  · rw [finish_insertTerm _ _
                      ((modeOf_dont (onError_mode _ _ _)).trans hdont2)]
                    rfl
                  · rw [finish_insertTerm _ _
                      ((modeOf_dont (next_mode (next s1))).trans hdont2)]
                    rfl
                · rw [if_neg h4] at h
                  by_cases h5 : s1.ch = 38
                  · -- '&'
                    rw [if_pos h5] at h
                    cases h
                    split
                    · rw [finish_insertTerm _ _
                        ((modeOf_dont (onError_mode _ _ _)).trans hdont2)]
                      rfl
                    · rw [finish_insertTerm _ _
                        ((modeOf_dont (next_mode (next s1))).trans hdont2)]
                      rfl
                  · rw [if_neg h5] at h
                    by_cases h6 : s1.ch = 35
                    · -- '#'
                      rw [if_pos h6] at h
                      by_cases h7 : (next s1).insertTerm = true
                      · rw [if_pos h7] at h; cases h; rfl
                      · rw [if_neg h7] at h
                        have hterm0 : s.insertTerm = false := by
                          rw [← hterm2]
                          cases hx : (next s1).insertTerm
                          · rfl
                          · exact absurd hx h7
                        cases hc : scanComment (loopFuel (next s1)) (next s1) with
                        | none => simp only [hc, reduceCtorEq] at h
                        | some r =>
                          simp only [hc] at h
                          have hmc := scanComment_mode _ _ _ _ (by rw [hc])
                          by_cases h8 : r.2.includeComments = false
                          · -- comment skipped: goto scanAgain
                            rw [if_pos h8] at h
                            have := ih _ _ h (by
                              show ({ r.2 with insertTerm := false } : Scanner).dontInsertTerms = false
                              exact ((modeOf_dont hmc).trans hdont2))
                            rw [this, hterm0]
                          · -- comment returned
                            rw [if_neg h8] at h
                            cases h
                            rw [finish_insertTerm _ _ ((modeOf_dont hmc).trans hdont2)]
                            rfl
                    · -- two-character operators, single tokens, illegal
                      rw [if_neg h6] at h
                      cases ht : twoCharOp s1.ch with
                      | some p =>
                        obtain ⟨t0, t1⟩ := p
                        simp only [ht] at h
                        cases h
                        rw [finish_insertTerm _ _
                          ((modeOf_dont (switch2_mode (next s1) t0 t1 61)).trans hdont2)]
                        have hf := twoCharOp_flag _ _ _ ht s.insertTerm
                        unfold switch2
                        split
                        · exact hf.2.symm
                        · exact hf.1.symm
                      | none =>
                        simp only [ht] at h
                        cases hs3 : singleTok s1.ch with
                        | some tok =>
                          simp only [hs3] at h
                          cases h
                          rw [finish_insertTerm _ _ hdont2]
                          exact (singleTok_flag _ _ hs3 s.insertTerm).symm
                        | none =>
                          simp only [hs3] at h
                          cases h
                          split
                          · rw [finish_insertTerm _ _
                              ((modeOf_dont (onError_mode _ _ _)).trans hdont2)]
                            exact (modeOf_insertTerm (onError_mode _ _ _)).trans hterm2
                          · rw [finish_insertTerm _ _ hdont2]
                            exact hterm2

theorem skipWhitespace_stop (fuel : Nat) (s : Scanner)
    (hc : ¬(s.ch = 32 ∨ s.ch = 9 ∨ s.ch = 13 ∨ (s.ch = 10 ∧ s.insertTerm = false))) :
    skipWhitespace (fuel + 1) s = some s := by
  unfold skipWhitespace
  rw [if_neg hc]

theorem loopFuel_succ (s : Scanner) : loopFuel s = s.input.length + 1 + 1 := rfl

/-- With the insertTerm flag set and the current character a newline, Scan
returns a synthetic TERMINATOR token with literal "\n" and clears the flag. -/
theorem scan_term_newline (fuel : Nat) (s : Scanner) (ht : s.insertTerm = true)
    (h10 : s.ch = 10) :
    Scan (fuel + 1) s = some ({ next s with insertTerm := false },
      (s.offset : Int), .TERMINATOR, "\n") := by
  have hc : ¬(s.ch = 32 ∨ s.ch = 9 ∨ s.ch = 13 ∨ (s.ch = 10 ∧ s.insertTerm = false)) := by
    rw [h10, ht]
    rintro (hx | hx | hx | ⟨-, hx⟩) <;> exact absurd hx (by decide)
  unfold Scan
  dsimp only
  rw [loopFuel_succ]
  simp only [skipWhitespace_stop _ _ hc]
  rw [h10]
  rw [if_neg (show ¬ isLetter (10 : Int) = true by decide)]
  rw [if_neg (show ¬(isDecimal (10 : Int) = true ∨ ((10 : Int) = 46 ∧ isDecimal (peek s) = true))
    from fun hx => by
      rcases hx with hx | ⟨hx, -⟩
      · exact absurd hx (by decide)
      · exact absurd hx (by decide))]
  rw [if_neg (show ¬(10 : Int) = -1 by decide)]
  rw [if_pos rfl]

/-- With the insertTerm flag set and the scanner at end of input, Scan returns
a synthetic TERMINATOR token with literal "\n" and clears the flag. -/
theorem scan_term_eof (fuel : Nat) (s : Scanner) (ht : s.insertTerm = true)
    (hm1 : s.ch = -1) :
    Scan (fuel + 1) s = some ({ next s with insertTerm := false },
      (s.offset : Int), .TERMINATOR, "\n") := by
  have hc : ¬(s.ch = 32 ∨ s.ch = 9 ∨ s.ch = 13 ∨ (s.ch = 10 ∧ s.insertTerm = false)) := by
    rw [hm1]
    rintro (hx | hx | hx | ⟨hx, -⟩) <;> exact absurd hx (by decide)
  unfold Scan
  dsimp only
  rw [loopFuel_succ]
  simp only [skipWhitespace_stop _ _ hc]
  rw [hm1]
  rw [if_neg (show ¬ isLetter (-1 : Int) = true by decide)]
  rw [if_neg (show ¬(isDecimal (-1 : Int) = true ∨ ((-1 : Int) = 46 ∧ isDecimal (peek s) = true))
    from fun hx => by
      rcases hx with hx | ⟨hx, -⟩
      · exact absurd hx (by decide)
      · exact absurd hx (by decide))]
  rw [if_pos rfl]
  rw [if_pos ((modeOf_insertTerm (next_mode s)).trans ht)]

/-- C2: amended flag rule.  After the scanner returns a token, the insertTerm
flag equals `flagSpec` of the token class and the previous flag: it is set
after identifier, number, float, string, bool and null; it is preserved (not
cleared) by ILLEGAL; and it is cleared by every other class — including the
closing punctuators `)` `]` `}`, diverging from the claimed list.  Whenever
the flag is set, a newline or the end of input at the scan position yields a
synthetic TERMINATOR token with literal "\n". -/
theorem c2_insert_term (fuel : Nat) (s : Scanner) :
    (∀ res, Scan fuel s = some res → s.dontInsertTerms = false →
        res.1.insertTerm = flagSpec res.2.2.1 s.insertTerm) ∧
    (s.insertTerm = true → s.ch = 10 →
        Scan (fuel + 1) s = some ({ next s with insertTerm := false },
          (s.offset : Int), .TERMINATOR, "\n")) ∧
    (s.insertTerm = true → s.ch = -1 →
        Scan (fuel + 1) s = some ({ next s with insertTerm := false },
          (s.offset : Int), .TERMINATOR, "\n")) :=
  ⟨fun res h hm => Scan_flag fuel s res h hm,
   fun ht h10 => scan_term_newline fuel s ht h10,
   fun ht hm1 => scan_term_eof fuel s ht hm1⟩

/-- C2 counterexample to the claimed flag list: scanning "a)\nb" with the
parser's configuration, the state after the RPAREN token has insertTerm =
false (the claim says the closing punctuator sets it), so no TERMINATOR is
inserted at the newline that follows `)` — the token stream is IDENT RPAREN
IDENT TERMINATOR with the sole TERMINATOR at end of input.  And after the
ILLEGAL token of "a@" the previous flag is preserved (true), where the claim
says every class outside its list clears it. -/
theorem c2_closing_punct_counterexample :
    ((stateAfter 2 "a)\x0ab").map Scanner.insertTerm = some false ∧
     (tokenize "a)\x0ab").map (fun r => r.1.map (fun t => t.2.1)) =
       some [Token.IDENT, Token.RPAREN, Token.IDENT, Token.TERMINATOR]) ∧
    (stateAfter 2 "a@").map Scanner.insertTerm = some true :=
  ⟨⟨rfl, rfl⟩, rfl⟩

/-- Witness for C2: the terminator conjuncts applied at concrete scanner
states (a newline and an end of input with the flag set), the flag rule
evaluated on the first token of "a", and the newline of "a\nb" yielding a
TERMINATOR after the identifier. -/
theorem c2_insert_term_witness :
    (Scan 1 ⟨[], [], false, false, 10, 0, 0, true, 0, NewFile ""⟩ =
      some ({ next ⟨[], [], false, false, 10, 0, 0, true, 0, NewFile ""⟩ with
        insertTerm := false }, (0 : Int), .TERMINATOR, "\n")) ∧
    (Scan 1 ⟨[], [], false, false, -1, 0, 0, true, 0, NewFile ""⟩ =
      some ({ next ⟨[], [], false, false, -1, 0, 0, true, 0, NewFile ""⟩ with
        insertTerm := false }, (0 : Int), .TERMINATOR, "\n")) ∧
    (Scan 3 (New "" (strBytes "a") false false)).map
      (fun res => res.1.insertTerm == flagSpec res.2.2.1 false) = some true ∧
    (tokenize "a\x0ab").map (fun r => r.1.map (fun t => t.2.1)) =
      some [Token.IDENT, Token.TERMINATOR, Token.IDENT, Token.TERMINATOR] :=
  ⟨(c2_insert_term 0 _).2.1 rfl rfl, (c2_insert_term 0 _).2.2 rfl rfl, rfl, rfl⟩

end scanner

/-! ## Claims C1, C4, C5, C9: the expression pipeline -/

/-- C1: refuted as stated.  Integer division and modulus by zero are Go
runtime panics inside numericalBinop — the source has no divisor check — and
Evaluator.Evaluate installs no recover(), so the panic crosses Evaluate and
crashes the process instead of surfacing as a returned error with position:
for every int64 and every uint64 left operand, dividing by zero and taking
the modulus by zero panic, and the full pipeline on "1 / 0" and "1 % 0"
ends in that panic. -/
theorem c1_div_zero_panics :
    (∀ i : Int,
      value.Binop (value.ofInt i) .DIV (value.ofInt 0) =
        .error (.gopanic "runtime error: integer divide by zero") ∧
      value.Binop (value.ofInt i) .MOD (value.ofInt 0) =
        .error (.gopanic "runtime error: integer divide by zero")) ∧
    (∀ u : Nat,
      value.Binop (value.ofUint u) .DIV (value.ofUint 0) =
        .error (.gopanic "runtime error: integer divide by zero") ∧
      value.Binop (value.ofUint u) .MOD (value.ofUint 0) =
        .error (.gopanic "runtime error: integer divide by zero")) ∧
    evaluateStringInto "1 / 0" .tInt64 (.vInt64 0) =
      some (.error (.gopanic "runtime error: integer divide by zero")) ∧
    evaluateStringInto "1 % 0" .tInt64 (.vInt64 0) =
      some (.error (.gopanic "runtime error: integer divide by zero")) := by
  have t1 : scanner.tokenizeE "1 / 0" =
      some ([(0, .NUMBER, "1"), (2, .DIV, ""), (4, .NUMBER, "0"), (5, .TERMINATOR, "\n")],
        5, []) := by rfl
  have t2 : scanner.tokenizeE "1 % 0" =
      some ([(0, .NUMBER, "1"), (2, .MOD, ""), (4, .NUMBER, "0"), (5, .TERMINATOR, "\n")],
        5, []) := by rfl
  have p1 : parser.ParseExpression "1 / 0" =
      some (.ok (.binary .DIV 2 (.lit .NUMBER "1" 0) (.lit .NUMBER "0" 4))) := by
    simp only [parser.ParseExpression, parser.newParser, t1]
    rfl
  have p2 : parser.ParseExpression "1 % 0" =
      some (.ok (.binary .MOD 2 (.lit .NUMBER "1" 0) (.lit .NUMBER "0" 4))) := by
    simp only [parser.ParseExpression, parser.newParser, t2]
    rfl
  refine ⟨fun i => ⟨rfl, rfl⟩, fun u => ⟨rfl, rfl⟩, ?_, ?_⟩
  · simp only [evaluateStringInto, p1]
    rfl
  · simp only [evaluateStringInto, p2]
    rfl

/-- C4: refuted as stated.  The StartPos/EndPos visitors return, for an
AccessExpr, the accessed name's position and the end of the accessed VALUE
respectively — parsing "foo.bar" yields an access node whose StartPos is 4
(the offset of "bar") and whose EndPos is 3 (the end of "foo"), so
start_pos(N) ≤ end_pos(N) fails on a parser-produced node. -/
theorem c4_access_position_swap :
    parser.ParseExpression "foo.bar" =
      some (.ok (.access (.ident "foo" 0) "bar" 4)) ∧
    ast.Expr.StartPos (.access (.ident "foo" 0) "bar" 4) = some 4 ∧
    ast.Expr.EndPos (.access (.ident "foo" 0) "bar" 4) = some 3 ∧
    ¬((4 : Pos) ≤ (3 : Pos)) := by
  have t1 : scanner.tokenizeE "foo.bar" =
      some ([(0, .IDENT, "foo"), (3, .DOT, ""), (4, .IDENT, "bar"), (7, .TERMINATOR, "\n")],
        7, []) := by rfl
  refine ⟨?_, rfl, rfl, by decide⟩
  simp only [parser.ParseExpression, parser.newParser, t1]
  rfl

/-- C5: refuted as stated.  An index expression does require an array
left-hand side and a numeric index (both yield returned errors otherwise),
and a fractional index is truncated to an integer; but there is no bounds
check — Value.Index forwards to reflect, whose out-of-range panic crosses
the evaluator and crashes the process: `[0, 1, 2][5]` panics rather than
erroring. -/
theorem c5_index_no_bounds_check :
    evalString "[0, 1, 2][5]" =
      some (.error (.gopanic "reflect: slice index out of range")) ∧
    evalString "3[0]" =
      some (.error (.verr (.msg "cannot take an index of non-list type number"))) ∧
    evalString "[1][\"a\"]" =
      some (.error (.verr (.msg "type string cannot be used to index objects"))) ∧
    evalString "[0, 1, 2][1.9]" = some (.ok (value.ofInt 1)) := by
  have t1 : scanner.tokenizeE "[0, 1, 2][5]" =
      some ([(0, .LBRACKET, ""), (1, .NUMBER, "0"), (2, .COMMA, ""), (4, .NUMBER, "1"),
        (5, .COMMA, ""), (7, .NUMBER, "2"), (8, .RBRACKET, ""), (9, .LBRACKET, ""),
        (10, .NUMBER, "5"), (11, .RBRACKET, "")], 12, []) := by rfl
  have t2 : scanner.tokenizeE "3[0]" =
      some ([(0, .NUMBER, "3"), (1, .LBRACKET, ""), (2, .NUMBER, "0"),
        (3, .RBRACKET, "")], 4, []) := by rfl
  have t3 : scanner.tokenizeE "[1][\"a\"]" =
      some ([(0, .LBRACKET, ""), (1, .NUMBER, "1"), (2, .RBRACKET, ""), (3, .LBRACKET, ""),
        (4, .STRING, "\"a\""), (7, .RBRACKET, "")], 8, []) := by rfl
  have t4 : scanner.tokenizeE "[0, 1, 2][1.9]" =
      some ([(0, .LBRACKET, ""), (1, .NUMBER, "0"), (2, .COMMA, ""), (4, .NUMBER, "1"),
        (5, .COMMA, ""), (7, .NUMBER, "2"), (8, .RBRACKET, ""), (9, .LBRACKET, ""),
        (10, .FLOAT, "1.9"), (13, .RBRACKET, "")], 14, []) := by rfl
  have p1 : parser.ParseExpression "[0, 1, 2][5]" =
      some (.ok (.index (.array [.lit .NUMBER "0" 1, .lit .NUMBER "1" 4, .lit .NUMBER "2" 7]
        0 8) (.lit .NUMBER "5" 10) 9 11)) := by
    simp only [parser.ParseExpression, parser.newParser, t1]
    rfl
  have p2 : parser.ParseExpression "3[0]" =
      some (.ok (.index (.lit .NUMBER "3" 0) (.lit .NUMBER "0" 2) 1 3)) := by
    simp only [parser.ParseExpression, parser.newParser, t2]
    rfl
  have p3 : parser.ParseExpression "[1][\"a\"]" =
      some (.ok (.index (.array [.lit .NUMBER "1" 1] 0 2) (.lit .STRING "\"a\"" 4) 3 7)) := by
    simp only [parser.ParseExpression, parser.newParser, t3]
    rfl
  have p4 : parser.ParseExpression "[0, 1, 2][1.9]" =
      some (.ok (.index (.array [.lit .NUMBER "0" 1, .lit .NUMBER "1" 4, .lit .NUMBER "2" 7]
        0 8) (.lit .FLOAT "1.9" 10) 9 13)) := by
    simp only [parser.ParseExpression, parser.newParser, t4]
    rfl
  refine ⟨?_, ?_, ?_, ?_⟩
  · simp only [evalString, p1]
    rfl
  · simp only [evalString, p2]
    rfl
  · simp only [evalString, p3]
    rfl
  · simp only [evalString, p4]
    rfl

/-- C9: operator precedence and associativity.  `3 + 5 * 2` parses with the
multiplication nested under the addition and evaluates to 13; the
parenthesized `(3 + 5) * 2` evaluates to 16; `2 ^ 3 ^ 2` parses
right-associatively and evaluates to 512; and intPow at exponent 0, 1 and 2
is repeated (wrapping) multiplication of the base. -/
theorem c9_precedence_eval :
    parser.ParseExpression "3 + 5 * 2" =
      some (.ok (.binary .ADD 2 (.lit .NUMBER "3" 0)
        (.binary .MUL 6 (.lit .NUMBER "5" 4) (.lit .NUMBER "2" 8)))) ∧
    evalString "3 + 5 * 2" = some (.ok (value.ofInt 13)) ∧
    evalString "(3 + 5) * 2" = some (.ok (value.ofInt 16)) ∧
    parser.ParseExpression "2 ^ 3 ^ 2" =
      some (.ok (.binary .POW 2 (.lit .NUMBER "2" 0)
        (.binary .POW 6 (.lit .NUMBER "3" 4) (.lit .NUMBER "2" 8)))) ∧
    evalString "2 ^ 3 ^ 2" = some (.ok (value.ofInt 512)) ∧
    (∀ n : Int, value.intPowI n 0 = 1 ∧ value.intPowI n 1 = n ∧
      value.intPowI n 2 = i64mul n n) := by
  have t1 : scanner.tokenizeE "3 + 5 * 2" =
      some ([(0, .NUMBER, "3"), (2, .ADD, ""), (4, .NUMBER, "5"), (6, .MUL, ""),
        (8, .NUMBER, "2"), (9, .TERMINATOR, "\n")], 9, []) := by rfl
  have t2 : scanner.tokenizeE "(3 + 5) * 2" =
      some ([(0, .LPAREN, ""), (1, .NUMBER, "3"), (3, .ADD, ""), (5, .NUMBER, "5"),
        (6, .RPAREN, ""), (8, .MUL, ""), (10, .NUMBER, "2"), (11, .TERMINATOR, "\n")],
        11, []) := by rfl
  have t3 : scanner.tokenizeE "2 ^ 3 ^ 2" =
      some ([(0, .NUMBER, "2"), (2, .POW, ""), (4, .NUMBER, "3"), (6, .POW, ""),
        (8, .NUMBER, "2"), (9, .TERMINATOR, "\n")], 9, []) := by rfl
  have p1 : parser.ParseExpression "3 + 5 * 2" =
      some (.ok (.binary .ADD 2 (.lit .NUMBER "3" 0)
        (.binary .MUL 6 (.lit .NUMBER "5" 4) (.lit .NUMBER "2" 8)))) := by
    simp only [parser.ParseExpression, parser.newParser, t1]
    rfl
  have p2 : parser.ParseExpression "(3 + 5) * 2" =
      some (.ok (.binary .MUL 8 (.paren 0 (.binary .ADD 3 (.lit .NUMBER "3" 1)
        (.lit .NUMBER "5" 5)) 6) (.lit .NUMBER "2" 10))) := by
    simp only [parser.ParseExpression, parser.newParser, t2]
    rfl
  have p3 : parser.ParseExpression "2 ^ 3 ^ 2" =
      some (.ok (.binary .POW 2 (.lit .NUMBER "2" 0)
        (.binary .POW 6 (.lit .NUMBER "3" 4) (.lit .NUMBER "2" 8)))) := by
    simp only [parser.ParseExpression, parser.newParser, t3]
    rfl
  refine ⟨p1, ?_, ?_, p3, ?_, fun n => ⟨rfl, rfl, rfl⟩⟩
  · simp only [evalString, p1]
    rfl
  · simp only [evalString, p2]
    rfl
  · simp only [evalString, p3]
    rfl

/-! ## Claims C6 and C7: block decoding -/

/-- C6: block label decoding.  `labelTags` really is the tag list of the
label schema; with a label field declared, every non-empty label is assigned
to that field; a block without a label errors with "requires non-empty
label"; a labeled block against a schema with no label field errors with
"does not support specifying labels"; and the labeled source
`thing "x" {}` parses and decodes successfully. -/
theorem c6_block_label :
    value.getCachedTags labelSchema = .ok labelTags ∧
    (∀ label : String, label ≠ "" →
      vm.evaluateBlockLabel ["thing"] label labelTags labelSchema [.vString ""] =
        .ok [.vString label]) ∧
    vm.evaluateBlock 9 [] ["thing"] "" [] (.vStruct labelSchema [.vString ""]) =
      some (.error (.verr (.msg "block \"thing\" requires non-empty label"))) ∧
    vm.evaluateBlock 9 [] ["thing"] "x" [] (.vStruct innerSchema [.vInt64 0]) =
      some (.error (.verr (.msg "block \"thing\" does not support specifying labels"))) ∧
    parser.ParseFileStr "thing \"x\" \x7b\x7d" =
      some (.ok [.block ["thing"] 0 "x" [] 10 11]) ∧
    vm.evaluateBlock 9 [] ["thing"] "x" [] (.vStruct labelSchema [.vString ""]) =
      some (.ok (.vStruct labelSchema [.vString "x"])) := by
  have tt : scanner.tokenizeE "thing \"x\" \x7b\x7d" =
      some ([(0, .IDENT, "thing"), (6, .STRING, "\"x\""), (10, .LCURLY, ""),
        (11, .RCURLY, "")], 12, []) := by rfl
  refine ⟨rfl, ?_, rfl, rfl, ?_, rfl⟩
  · intro label h
    unfold vm.evaluateBlockLabel
    split
    · rename_i lf heq
      rw [show labelTags.find? (fun tf => tf.IsLabel) =
        some ⟨"", 0, ⟨false, false, false, false, true⟩⟩ from rfl] at heq
      cases heq
      rw [if_neg h]
      rfl
    · rename_i heq
      rw [show labelTags.find? (fun tf => tf.IsLabel) =
        some ⟨"", 0, ⟨false, false, false, false, true⟩⟩ from rfl] at heq
      cases heq
  · simp only [parser.ParseFileStr, parser.newParser, tt]
    rfl

/-- Witness for C6: the universally quantified label-assignment conjunct
instantiated at the concrete label "x". -/
theorem c6_block_label_witness :
    vm.evaluateBlockLabel ["thing"] "x" labelTags labelSchema [.vString ""] =
      .ok [.vString "x"] :=
  c6_block_label.2.1 "x" (by decide)

/-! ### Replicated-block lemmas: the slice case of C7 for every block count -/

theorem attrsFor_replicate : ∀ k, vm.attrsFor (List.replicate k bBlock) "b" = [] := by
  intro k
  induction k with
  | zero => rfl
  | succ n ih =>
    rw [List.replicate_succ]
    show vm.attrsFor (List.replicate n bBlock) "b" = []
    exact ih

theorem blocksFor_replicate : ∀ k, vm.blocksFor (List.replicate k bBlock) "b" =
    List.replicate k bTriple := by
  intro k
  induction k with
  | zero => rfl
  | succ n ih =>
    rw [List.replicate_succ, List.replicate_succ]
    show bTriple :: vm.blocksFor (List.replicate n bBlock) "b" =
      bTriple :: List.replicate n bTriple
    rw [ih]

theorem attrNames_replicate : ∀ k, vm.attrNamesOf (List.replicate k bBlock) = [] := by
  intro k
  induction k with
  | zero => rfl
  | succ n ih =>
    rw [List.replicate_succ]
    show vm.attrNamesOf (List.replicate n bBlock) = []
    exact ih

theorem blockNames_replicate : ∀ k, vm.blockNamesOf (List.replicate k bBlock) =
    List.replicate k "b" := by
  intro k
  induction k with
  | zero => rfl
  | succ n ih =>
    rw [List.replicate_succ, List.replicate_succ]
    show "b" :: vm.blockNamesOf (List.replicate n bBlock) = "b" :: List.replicate n "b"
    rw [ih]

theorem findb_replicate (p : String → Bool) (hp : p "b" = false) :
    ∀ k, (List.replicate k "b").find? p = none := by
  intro k
  induction k with
  | zero => rfl
  | succ n ih =>
    rw [List.replicate_succ, List.find?_cons_of_neg _ (by simp [hp])]
    exact ih

theorem unrecognized_replicate (k : Nat) :
    vm.unrecognizedCheck (List.replicate k bBlock) sliceTags = none := by
  unfold vm.unrecognizedCheck
  rw [attrNames_replicate, blockNames_replicate]
  dsimp only
  rw [findb_replicate
    (fun n => ! ((sliceTags.filter (fun tf => tf.IsBlock)).map rivertags.Field.Name).contains n)
    (by rfl) k]
  rfl

/-- Decoding the inner block `b { a = 1 }` into a zeroed inner struct
succeeds at every fuel of at least 3. -/
theorem innerBlock_decode (F : Nat) (hF : 3 ≤ F) :
    vm.evaluateBlock F [] ["b"] "" [.attribute "a" 0 (.lit .NUMBER "1" 0)]
      (.vStruct innerSchema [.vInt64 0]) = some (.ok innerOne) := by
  obtain ⟨g, rfl⟩ := Nat.exists_eq_add_of_le hF
  rw [Nat.add_comm]
  rfl

/-- The Slice decode of k copies of the inner block gives exactly k decoded
elements. -/
theorem blocksSlice_replicate : ∀ (k F : Nat), k + 4 ≤ F →
    vm.evalBlocksSlice F [] (List.replicate k bTriple) (.tStruct innerSchema) =
      some (.ok (List.replicate k innerOne)) := by
  intro k
  induction k with
  | zero =>
    intro F hF
    obtain ⟨g, rfl⟩ := Nat.exists_eq_add_of_le hF
    rw [Nat.add_comm]
    rfl
  | succ n ih =>
    intro F hF
    obtain ⟨g, rfl⟩ := Nat.exists_eq_add_of_le hF
    rw [Nat.add_comm]
    have hstep : vm.evalBlocksSlice (g + (n + 1 + 4)) [] (List.replicate (n + 1) bTriple)
        (.tStruct innerSchema) =
        (match vm.evaluateBlock (g + (n + 4)) [] ["b"] ""
            [.attribute "a" 0 (.lit .NUMBER "1" 0)] (.vStruct innerSchema [.vInt64 0]) with
         | none => none
         | some (.error f) => some (.error f)
         | some (.ok inner) =>
           match vm.evalBlocksSlice (g + (n + 4)) [] (List.replicate n bTriple)
               (.tStruct innerSchema) with
           | none => none
           | some (.error f) => some (.error f)
           | some (.ok elems) =>
             some (.ok (vm.rewrapPtrs (.tStruct innerSchema) inner :: elems))) := rfl
    rw [hstep, innerBlock_decode (g + (n + 4)) (by omega), ih (g + (n + 4)) (by omega)]
    rfl

/-- The tag-field loop on k+1 copies of the inner block and the slice
schema resets the field to k+1 decoded elements, whatever it held. -/
theorem tagLoop_slice_replicate (k F : Nat) (cur : GoVal) (hF : k + 6 ≤ F) :
    vm.evalTagLoop F [] (List.replicate (k + 1) bBlock) sliceTags sliceBlockSchema [cur] =
      some (.ok [.vSlice (.tStruct innerSchema) (List.replicate (k + 1) innerOne)]) := by
  obtain ⟨g, rfl⟩ := Nat.exists_eq_add_of_le hF
  rw [Nat.add_comm]
  show vm.evalTagLoop ((g + (k + 5)) + 1) [] (List.replicate (k + 1) bBlock) sliceTags
    sliceBlockSchema [cur] = _
  simp only [vm.evalTagLoop, attrsFor_replicate, blocksFor_replicate,
    List.length_replicate, List.length_nil]
  simp only [rivertags.Field.IsIgnored, rivertags.Field.IsAttr, rivertags.Field.IsBlock,
    rivertags.Field.IsOptional, vm.derefPtrs]
  simp
  rw [blocksSlice_replicate (k + 1) (g + (k + 5)) (by omega)]
  rfl

/-- For every block count k+1 and every previous field value, decoding the
body of k+1 `b` blocks against the optional slice schema succeeds and resets
the slice to exactly k+1 decoded elements. -/
theorem slice_reset_all (k : Nat) (cur : GoVal) :
    vm.evaluateBlock (k + 7) [] ["outer"] "" (List.replicate (k + 1) bBlock)
      (.vStruct sliceBlockSchema [cur]) =
      some (.ok (.vStruct sliceBlockSchema
        [.vSlice (.tStruct innerSchema) (List.replicate (k + 1) innerOne)])) := by
  show vm.evaluateBlock ((k + 6) + 1) [] ["outer"] "" (List.replicate (k + 1) bBlock)
    (.vStruct sliceBlockSchema [cur]) = _
  simp only [vm.evaluateBlock]
  simp only [show value.getCachedTags sliceBlockSchema = .ok sliceTags from rfl]
  simp only [show vm.evaluateBlockLabel ["outer"] "" sliceTags sliceBlockSchema [cur] =
    .ok [cur] from rfl]
  rw [tagLoop_slice_replicate k (k + 6) cur (by omega)]
  simp only [unrecognized_replicate]

/-- C7: block cardinality against a schema field (amended).  A scalar block
field decodes exactly one matching block and errors on two ("may only be
specified once") or on zero when required ("missing required block"); a
slice field with k ≥ 1 matching blocks is reset to exactly k freshly
decoded elements, whatever value the field held before — proved for every k
and every previous value, and exercised at k = 1, 2, 3 from the zero value;
a fixed [3]-array field decodes the one
block given and zeroes the remaining elements; and a required attribute with
no source errors with "missing required attribute".  (With zero matching
blocks an optional field is skipped entirely — see the counterexample.) -/
theorem c7_block_cardinality :
    vm.evaluateBlock 9 [] ["outer"] "" [bBlock] (.vStruct scalarBlockSchema [innerZero]) =
      some (.ok (.vStruct scalarBlockSchema [innerOne])) ∧
    vm.evaluateBlock 9 [] ["outer"] "" [bBlock, bBlock]
        (.vStruct scalarBlockSchema [innerZero]) =
      some (.error (.verr (.msg "block \"b\" may only be specified once"))) ∧
    vm.evaluateBlock 9 [] ["outer"] "" [] (.vStruct scalarBlockSchema [innerZero]) =
      some (.error (.verr (.msg "missing required block \"b\""))) ∧
    vm.evaluateBlock 9 [] ["outer"] "" [bBlock]
        (.vStruct sliceBlockSchema [.vSlice (.tStruct innerSchema) []]) =
      some (.ok (.vStruct sliceBlockSchema [.vSlice (.tStruct innerSchema) [innerOne]])) ∧
    vm.evaluateBlock 9 [] ["outer"] "" [bBlock, bBlock]
        (.vStruct sliceBlockSchema [.vSlice (.tStruct innerSchema) []]) =
      some (.ok (.vStruct sliceBlockSchema
        [.vSlice (.tStruct innerSchema) [innerOne, innerOne]])) ∧
    vm.evaluateBlock 9 [] ["outer"] "" [bBlock, bBlock, bBlock]
        (.vStruct sliceBlockSchema [.vSlice (.tStruct innerSchema) []]) =
      some (.ok (.vStruct sliceBlockSchema
        [.vSlice (.tStruct innerSchema) [innerOne, innerOne, innerOne]])) ∧
    vm.evaluateBlock 9 [] ["outer"] "" [bBlock]
        (.vStruct arrayBlockSchema [.vArray (.tStruct innerSchema) []]) =
      some (.ok (.vStruct arrayBlockSchema
        [.vArray (.tStruct innerSchema) [innerOne, innerZero, innerZero]])) ∧
    vm.evaluateBlock 9 [] ["outer"] "" [] (.vStruct reqAttrSchema [.vInt64 0]) =
      some (.error (.verr (.msg "missing required attribute \"a\""))) ∧
    (∀ (k : Nat) (cur : GoVal),
      vm.evaluateBlock (k + 7) [] ["outer"] "" (List.replicate (k + 1) bBlock)
        (.vStruct sliceBlockSchema [cur]) =
      some (.ok (.vStruct sliceBlockSchema
        [.vSlice (.tStruct innerSchema) (List.replicate (k + 1) innerOne)]))) :=
  ⟨rfl, rfl, rfl, rfl, rfl, rfl, rfl, rfl, fun k cur => slice_reset_all k cur⟩

/-- C7 counterexample to "the slice reset to exactly the number of blocks
found" read at zero blocks: an optional slice field with NO matching block is
skipped by the optional-field check before any decode, so a previous
one-element slice value survives instead of being reset to the empty
slice. -/
theorem c7_slice_zero_counterexample :
    vm.evaluateBlock 9 [] ["outer"] "" []
        (.vStruct sliceBlockSchema
          [.vSlice (.tStruct innerSchema) [.vStruct innerSchema [.vInt64 7]]]) =
      some (.ok (.vStruct sliceBlockSchema
        [.vSlice (.tStruct innerSchema) [.vStruct innerSchema [.vInt64 7]]])) ∧
    vm.evaluateBlock 9 [] ["outer"] "" []
        (.vStruct sliceBlockSchema
          [.vSlice (.tStruct innerSchema) [.vStruct innerSchema [.vInt64 7]]]) ≠
      some (.ok (.vStruct sliceBlockSchema [.vSlice (.tStruct innerSchema) []])) := by
  refine ⟨rfl, ?_⟩
  intro h
  rw [show vm.evaluateBlock 9 [] ["outer"] "" []
      (.vStruct sliceBlockSchema
        [.vSlice (.tStruct innerSchema) [.vStruct innerSchema [.vInt64 7]]]) =
    some (.ok (.vStruct sliceBlockSchema
      [.vSlice (.tStruct innerSchema) [.vStruct innerSchema [.vInt64 7]]])) from rfl] at h
  simp at h

end River
